import Mathlib

/-!
Verification development for the AWAP/ACODS region and windowed-density code.

This file gives a shallow embedding of the core algorithmic content of the
repository:

* `Src/awapIO.py`: `getLats`, `getLons` (cell-center coordinate axes);
* `Src/awapRegion.py`: the `Region` and `SubRegion` constructors, including
  the automatic bounding-box derivation from a categorical mask and the
  latitude/longitude index-window computation;
* `Apps/tdpdfs-From-DataCubes.py`: `compute_KLD`, the epsilon smoothing of
  the `p` density in the divergence-matrix loop, and the sliding-window
  bookkeeping of the windowed density analysis.

Modelling conventions:

* Python floats are idealised as rationals (`ℚ`); machine rounding is not
  modelled.  `np.linspace(first, last, num)` with
  `last = first + (num - 1) * cellsize` is exactly
  `first + i * cellsize` for `i = 0, ..., num - 1` (also for `num = 1`,
  where NumPy returns `[first]`, and `num = 0`, where it returns `[]`).
* `np.log2` is an external transcendental routine; it is modelled as an
  explicit function parameter `log2 : ℚ → ℚ`.  Every theorem that needs a
  property of the real logarithm (such as `log2 1 = 0`) takes it as a
  hypothesis; the real base-2 logarithm satisfies all hypotheses used.
* Fallible Python operations are modelled with `Except PyErr`:
  `.min()` / `.max()` on an empty NumPy array raise `ValueError`
  (zero-size reduction), `[0]` / `[-1]` on an empty index array raise
  `IndexError`, and reading a never-assigned attribute raises
  `AttributeError`.  `sys.exit()` calls are a distinct terminal outcome.
* A NumPy masked array is modelled as a raw data function together with a
  boolean mask function and explicit dimensions.  In
  `np.where(topoMask == scalar)`, `np.asarray` reads the data buffer of
  the `ma.__eq__` result, into which NumPy folds the mask: a masked cell
  never matches the scalar (numpy >= 1.13 semantics; earlier versions
  fill masked cells with 0 before comparing, which coincides whenever the
  compared id is nonzero).  So a cell matches exactly when it is unmasked
  and its stored value equals the scalar.  Only the minimum, maximum and
  emptiness of the `np.where` index arrays are ever consumed by the code,
  so the embedding records, for each axis, the sorted list of distinct
  row (resp. column) indices that contain a match; this list has the same
  minimum, maximum and emptiness as the NumPy index array.  The child
  mask construction (lines 269-277), by contrast, goes through
  `topoMask._get_data()` explicitly and therefore really does use the raw
  stored values alone.
-/

/-- Python / NumPy failure modes relevant to the embedded code. -/
inductive PyErr where
  /-- `ValueError`: zero-size array to reduction operation (`.min()` or
  `.max()` on an empty array). -/
  | valueError : PyErr
  /-- `IndexError`: indexing an empty array with `[0]` or `[-1]`, or an
  out-of-range index. -/
  | indexError : PyErr
  /-- `AttributeError`: reading an attribute that was never assigned. -/
  | attributeError : PyErr
  /-- `sys.exit()` (used by the code as a fatal diagnostic exit). -/
  | sysExit : PyErr
deriving DecidableEq, Repr

/-- Decoded AWAP/BIOS2 grid header (`readAWAP_hdr` output; the text parser
itself is an excluded I/O collaborator).  The `byteorder` tag plays no role
in the embedded core. -/
structure GridHeader where
  nrows : ℕ
  ncols : ℕ
  xllcorner : ℚ
  yllcorner : ℚ
  cellsize : ℚ
  nodata_value : ℚ

/-- `awapIO.getLats(HeaderDict, Reverse)`: cell-center latitudes.
`firstLat = yllcorner + 0.5 * cellsize`, then
`np.linspace(firstLat, lastLat, num=nrows)` with
`lastLat = firstLat + (nrows - 1) * cellsize`, i.e. pointwise
`firstLat + i * cellsize`; reversed when `Reverse` is true (the default in
the Python source). -/
def getLats (HeaderDict : GridHeader) (Reverse : Bool) : List ℚ :=
  let firstLat := HeaderDict.yllcorner + HeaderDict.cellsize / 2
  let lats := (List.range HeaderDict.nrows).map
    (fun (i : ℕ) => firstLat + (i : ℚ) * HeaderDict.cellsize)
  if Reverse then lats.reverse else lats

/-- `awapIO.getLons(HeaderDict)`: cell-center longitudes,
`xllcorner + 0.5 * cellsize + j * cellsize` in ascending order. -/
def getLons (HeaderDict : GridHeader) : List ℚ :=
  let firstLon := HeaderDict.xllcorner + HeaderDict.cellsize / 2
  (List.range HeaderDict.ncols).map
    (fun (j : ℕ) => firstLon + (j : ℚ) * HeaderDict.cellsize)

/-- `awapRegion.epsilon = 1.e-6`, the roundoff tolerance used when padding
an explicitly supplied bounding box. -/
def epsilon : ℚ := 1 / 1000000

/-- `numpy.ma.count` on a 2-D masked array of shape
`(numRows, numCols)`: the number of cells whose mask entry is `False`. -/
def maCount (numRows numCols : ℕ) (mask : ℕ → ℕ → Bool) : ℕ :=
  ((List.range numRows).map
    (fun r => ((List.range numCols).filter (fun c => !(mask r c))).length)).sum

/-- `awapRegion.Region`: a named geographic extent over a rectangular
lat/lon grid.  The masked topo array `self.topoMask` is modelled by its raw
data buffer `topoMaskData`, its boolean mask `topoMaskMask` (true =
missing/masked) and the shape `(numLats, numLons)`.  `reversedLats` is an
`Option Bool` because the Python constructor assigns the attribute only
inside the `if self.lats[-1] < self.lats[0]` branch; `none` models the
attribute being unset (reading it raises `AttributeError`).
The `objectID` / `id(self)` diagnostics are not modelled. -/
structure Region where
  name : String
  regionType : String
  subRegionLevel : ℕ
  numLats : ℕ
  numLons : ℕ
  dLat : ℚ
  dLon : ℚ
  minLat : ℚ
  minLon : ℚ
  maxLat : ℚ
  maxLon : ℚ
  missingFlag : ℚ
  lats : List ℚ
  lons : List ℚ
  reversedLats : Option Bool
  topoMaskData : ℕ → ℕ → ℚ
  topoMaskMask : ℕ → ℕ → Bool
  numUnmaskedPoints : ℕ
  hasSubRegionDefs : Bool
  subRegionFlags : List (String × ℤ)

/-- `Region.__init__(HeaderDict, RegionName, RegionType, SetSubRegionTable)`.
The decoded masked grid array produced by the excluded I/O collaborator
`readAWAP_flt` is passed as `data` / `dataMask`, and the decoded id-lookup
table produced by `readAWAP_LUT` as `lut`.  The constructor fails with
`IndexError` when the latitude axis is empty (`self.lats[-1]` on an empty
array); otherwise it records `reversedLats = some true` exactly when
`lats[-1] < lats[0]`, leaving the attribute unset (`none`) in every other
case, as in the source (there is no `else` branch). -/
def Region.make (HeaderDict : GridHeader) (RegionName RegionType : Option String)
    (SetSubRegionTable : Bool) (data : ℕ → ℕ → ℚ) (dataMask : ℕ → ℕ → Bool)
    (lut : List (String × ℤ)) : Except PyErr Region :=
  let lats := getLats HeaderDict true
  let lons := getLons HeaderDict
  match lats.getLast? with
  | none => .error .indexError
  | some lastLat =>
    match lats.head? with
    | none => .error .indexError
    | some firstLat =>
      .ok
        { name := RegionName.getD "NONE"
          regionType := RegionType.getD "NONE"
          subRegionLevel := 0
          numLats := HeaderDict.nrows
          numLons := HeaderDict.ncols
          dLat := HeaderDict.cellsize
          dLon := HeaderDict.cellsize
          minLat := HeaderDict.yllcorner
          minLon := HeaderDict.xllcorner
          maxLat := (HeaderDict.nrows : ℚ) * HeaderDict.cellsize + HeaderDict.yllcorner
          maxLon := (HeaderDict.ncols : ℚ) * HeaderDict.cellsize + HeaderDict.xllcorner
          missingFlag := HeaderDict.nodata_value
          lats := lats
          lons := lons
          reversedLats := if lastLat < firstLat then some true else none
          topoMaskData := data
          topoMaskMask := dataMask
          numUnmaskedPoints := maCount HeaderDict.nrows HeaderDict.ncols dataMask
          hasSubRegionDefs := SetSubRegionTable
          subRegionFlags := if SetSubRegionTable then lut else [] }

/-- `Region.getSubRegionNames`: list of sub-region names, or a
warning-and-`sys.exit()` when the lookup table was never set. -/
def Region.getSubRegionNames (self : Region) : Except PyErr (List String) :=
  if self.hasSubRegionDefs then .ok (self.subRegionFlags.map Prod.fst)
  else .error .sysExit

/-- Sorted list of distinct row indices of `np.where(topoMask == v)` over
the shape `(numLats, numLons)`: the rows that contain at least one
matching cell, where a cell matches when it is unmasked and its stored
value equals `v` (masked cells never match a scalar comparison).  Its
minimum, maximum and emptiness agree with those of the NumPy row-index
array `np.where(...)[0]`. -/
def whereRows (P : Region) (v : ℚ) : List ℕ :=
  (List.range P.numLats).filter
    (fun r => (List.range P.numLons).any
      (fun c => !(P.topoMaskMask r c) && decide (P.topoMaskData r c = v)))

/-- Sorted list of distinct column indices of `np.where(topoMask == v)`
(same match condition as `whereRows`); minimum, maximum and emptiness
agree with those of `np.where(...)[1]`. -/
def whereCols (P : Region) (v : ℚ) : List ℕ :=
  (List.range P.numLons).filter
    (fun c => (List.range P.numLats).any
      (fun r => !(P.topoMaskMask r c) && decide (P.topoMaskData r c = v)))

/-- NumPy `.min()` on an integer index array: `ValueError` (`none`) on an
empty array, otherwise the least element. -/
def npMin (l : List ℕ) : Option ℕ :=
  match l with
  | [] => none
  | x :: xs => some (xs.foldl min x)

/-- NumPy `.max()` on an integer index array: `ValueError` (`none`) on an
empty array, otherwise the greatest element. -/
def npMax (l : List ℕ) : Option ℕ :=
  match l with
  | [] => none
  | x :: xs => some (xs.foldl max x)

/-- The bounding-box block of `SubRegion.__init__` (lines 210-233).
With an explicit `BoundingBox` the box is padded outward by one grid cell
plus `epsilon`; otherwise the box is derived automatically from the
positions of the unmasked cells whose stored topo-mask value equals
`float(RegFlag)` (the `np.where` match condition), in source order:
column minimum, column maximum, then the row extremes with the min/max
roles swapped when the parent's latitudes are reversed.  Returns
`(minLon, minLat, maxLon, maxLat)`. -/
def boxOf (P : Region) (RegFlag : ℤ) (BoundingBox : Option (ℚ × ℚ × ℚ × ℚ))
    (rev : Bool) : Except PyErr (ℚ × ℚ × ℚ × ℚ) :=
  match BoundingBox with
  | some bb =>
    .ok (bb.1 - P.dLon - epsilon, bb.2.1 - P.dLat - epsilon,
         bb.2.2.1 + P.dLon + epsilon, bb.2.2.2 + P.dLat + epsilon)
  | none =>
    match npMin (whereCols P (RegFlag : ℚ)) with
    | none => .error .valueError
    | some minLonIndex =>
      match P.lons[minLonIndex]? with
      | none => .error .indexError
      | some lonLo =>
        let minLon := lonLo - P.dLon / 2
        match npMax (whereCols P (RegFlag : ℚ)) with
        | none => .error .valueError
        | some maxLonIndex =>
          match P.lons[maxLonIndex]? with
          | none => .error .indexError
          | some lonHi =>
            let maxLon := lonHi + P.dLon / 2
            let latIdxPair :=
              if rev then
                (npMax (whereRows P (RegFlag : ℚ)), npMin (whereRows P (RegFlag : ℚ)))
              else
                (npMin (whereRows P (RegFlag : ℚ)), npMax (whereRows P (RegFlag : ℚ)))
            match latIdxPair.1 with
            | none => .error .valueError
            | some minLatIndex =>
              match latIdxPair.2 with
              | none => .error .valueError
              | some maxLatIndex =>
                match P.lats[minLatIndex]? with
                | none => .error .indexError
                | some latLo =>
                  match P.lats[maxLatIndex]? with
                  | none => .error .indexError
                  | some latHi =>
                    .ok (minLon, latLo - P.dLat / 2, maxLon, latHi + P.dLat / 2)

/-- The latitude index-window block of `SubRegion.__init__`
(lines 239-252).  `np.where(lats >= minLat)` and `np.where(lats <= maxLat)`
are filters over the positions of the latitude axis; `[0]` takes the first
and `[-1]` the last entry (raising `IndexError` when empty).  Returns
`(parentMinLatIndex, parentMaxLatIndex, parentLatStart, parentLatStop)`. -/
def latWindow (lats : List ℚ) (rev : Bool) (minLat maxLat : ℚ) :
    Except PyErr (ℕ × ℕ × ℕ × ℕ) :=
  let geIdx := (List.range lats.length).filter (fun i => decide (minLat ≤ lats.getD i 0))
  let leIdx := (List.range lats.length).filter (fun i => decide (lats.getD i 0 ≤ maxLat))
  if rev then
    match geIdx.getLast? with
    | none => .error .indexError
    | some pMinLatIdx =>
      match leIdx.head? with
      | none => .error .indexError
      | some pMaxLatIdx => .ok (pMinLatIdx, pMaxLatIdx, pMaxLatIdx, pMinLatIdx + 1)
  else
    match geIdx.head? with
    | none => .error .indexError
    | some pMinLatIdx =>
      match leIdx.getLast? with
      | none => .error .indexError
      | some pMaxLatIdx => .ok (pMinLatIdx, pMaxLatIdx, pMinLatIdx, pMaxLatIdx + 1)

/-- The longitude index-window block of `SubRegion.__init__`
(lines 257-262); longitudes are always handled in ascending orientation.
Returns `(parentMinLonIndex, parentMaxLonIndex, parentLonStart,
parentLonStop)`. -/
def lonWindow (lons : List ℚ) (minLon maxLon : ℚ) :
    Except PyErr (ℕ × ℕ × ℕ × ℕ) :=
  let geIdx := (List.range lons.length).filter (fun j => decide (minLon ≤ lons.getD j 0))
  let leIdx := (List.range lons.length).filter (fun j => decide (lons.getD j 0 ≤ maxLon))
  match geIdx.head? with
  | none => .error .indexError
  | some pMinLonIdx =>
    match leIdx.getLast? with
    | none => .error .indexError
    | some pMaxLonIdx => .ok (pMinLonIdx, pMaxLonIdx, pMinLonIdx, pMaxLonIdx + 1)

/-- `awapRegion.SubRegion`: a spatial subset of a parent region.  Carries
all `Region` attributes (a `SubRegion` is-a `Region` in the source) plus
the derivation metadata: parent identity, the selecting category id and
the four index-window bounds into the parent's axes. -/
structure SubRegion extends Region where
  parentName : String
  parentRegType : String
  regionID : ℤ
  parentMinLatIndex : ℕ
  parentMaxLatIndex : ℕ
  parentMinLonIndex : ℕ
  parentMaxLonIndex : ℕ
  parentLatStart : ℕ
  parentLatStop : ℕ
  parentLonStart : ℕ
  parentLonStop : ℕ

/-- `SubRegion.__init__(ParentRegion, RegFlag, BoundingBox, RegionName,
RegionType)`.  Reading `ParentRegion.reversedLats` (line 197) raises
`AttributeError` when the parent never assigned it.  The child's masked
topo array is built from the parent's raw data crop `regionIDs`:
`ma.masked_array(regionIDs, regionIDs != float(RegFlag))`, i.e. a cell is
masked exactly when its raw stored value differs from the category id; the
parent's own mask crop (`regionTopoMask` in the source) is extracted but
never used.  `numLats = parentLatStop - parentLatStart` is natural-number
subtraction: the (unreachable in practice) inverted-window case where
Python would store a negative count is clamped to `0`, matching the
row count of the sliced arrays.  No nesting check is performed: the level
is simply `ParentRegion.subRegionLevel + 1`. -/
def SubRegion.make (ParentRegion : Region) (RegFlag : ℤ)
    (BoundingBox : Option (ℚ × ℚ × ℚ × ℚ))
    (RegionName RegionType : Option String) : Except PyErr SubRegion :=
  match ParentRegion.reversedLats with
  | none => .error .attributeError
  | some rev =>
    match boxOf ParentRegion RegFlag BoundingBox rev with
    | .error e => .error e
    | .ok (minLon, minLat, maxLon, maxLat) =>
      match latWindow ParentRegion.lats rev minLat maxLat with
      | .error e => .error e
      | .ok (pMinLatIdx, pMaxLatIdx, latStart, latStop) =>
        match lonWindow ParentRegion.lons minLon maxLon with
        | .error e => .error e
        | .ok (pMinLonIdx, pMaxLonIdx, lonStart, lonStop) =>
          let childData : ℕ → ℕ → ℚ :=
            fun r c => ParentRegion.topoMaskData (latStart + r) (lonStart + c)
          let childMask : ℕ → ℕ → Bool :=
            fun r c => decide (childData r c ≠ (RegFlag : ℚ))
          .ok
            { name := RegionName.getD "NONE"
              regionType := RegionType.getD "NONE"
              subRegionLevel := ParentRegion.subRegionLevel + 1
              numLats := latStop - latStart
              numLons := lonStop - lonStart
              dLat := ParentRegion.dLat
              dLon := ParentRegion.dLon
              minLat := minLat
              minLon := minLon
              maxLat := maxLat
              maxLon := maxLon
              missingFlag := ParentRegion.missingFlag
              lats := (ParentRegion.lats.drop latStart).take (latStop - latStart)
              lons := (ParentRegion.lons.drop lonStart).take (lonStop - lonStart)
              reversedLats := some rev
              topoMaskData := childData
              topoMaskMask := childMask
              numUnmaskedPoints :=
                maCount (latStop - latStart) (lonStop - lonStart) childMask
              hasSubRegionDefs := false
              subRegionFlags := []
              parentName := ParentRegion.name
              parentRegType := ParentRegion.regionType
              regionID := RegFlag
              parentMinLatIndex := pMinLatIdx
              parentMaxLatIndex := pMaxLatIdx
              parentMinLonIndex := pMinLonIdx
              parentMaxLonIndex := pMaxLonIdx
              parentLatStart := latStart
              parentLatStop := latStop
              parentLonStart := lonStart
              parentLonStop := lonStop }

/-- Number of cells of the parent grid whose raw stored value equals `v`
(the count of `v`-valued cells in the parent mask raster). -/
def countEq (P : Region) (v : ℚ) : ℕ :=
  ((List.range P.numLats).map
    (fun r => ((List.range P.numLons).filter
      (fun c => decide (P.topoMaskData r c = v))).length)).sum

/-- `compute_KLD(p, q, dx)` from `Apps/tdpdfs-From-DataCubes.py`
(lines 16-36): a size mismatch prints a fatal diagnostic and calls
`sys.exit()` (modelled as `none`); otherwise bins where `p[i] <= 0` or
`q[i] <= 0` are skipped (`continue`) and the remaining bins accumulate
`p[i] * log2(p[i] / q[i]) * dx`.  `np.log2` is passed explicitly as
`log2`. -/
def compute_KLD (log2 : ℚ → ℚ) (p q : List ℚ) (dx : ℚ) : Option ℚ :=
  if p.length ≠ q.length then none
  else
    some ((p.zip q).foldl
      (fun kld pq => if pq.1 ≤ 0 ∨ pq.2 ≤ 0 then kld
                     else kld + pq.1 * log2 (pq.1 / pq.2) * dx) 0)

/-- The KL-divergence value as worded in the specification: the sum over
bins `b` with `p[b] > 0` and `q[b] > 0` of `p[b] * log2(p[b] / q[b]) * dx`
(all other bins contribute exactly zero).  This definition follows the
spec text and is compared with the source-derived `compute_KLD`. -/
def KLD_specification (log2 : ℚ → ℚ) (p q : List ℚ) (dx : ℚ) : ℚ :=
  ((List.range p.length).map
    (fun b => if 0 < p.getD b 0 ∧ 0 < q.getD b 0 then
                p.getD b 0 * log2 (p.getD b 0 / q.getD b 0) * dx
              else 0)).sum

/-- The additive epsilon smoothing applied to the density `p` in the
divergence-matrix loop (line 199):
`p = (p + 1.e-8) / (1. + p.size * 1.e-8)`. -/
def smoothDensity (p : List ℚ) : List ℚ :=
  p.map (fun x => (x + 1 / 100000000) / (1 + (p.length : ℚ) * (1 / 100000000)))

/-- Entry `(i, j)` of the divergence matrix `kld_values` (lines 193-202):
`p` is the `i`-th density row after epsilon smoothing, `q` is the raw
`j`-th density row, and the entry is `compute_KLD(p, q, bin_width)`. -/
def kldMatrixEntry (log2 : ℚ → ℚ) (tdpdf : List (List ℚ)) (dx : ℚ)
    (i j : ℕ) : Option ℚ :=
  compute_KLD log2 (smoothDensity (tdpdf.getD i [])) (tdpdf.getD j []) dx

/-- `num_wins = 1 + (num_times - win_size) / win_slide` (line 126; the
source divides by the literal `3`, the value of `win_slide` fixed two
lines above; the quantity is embedded with the slide as a parameter).
Python 2 `/` on nonnegative ints is floor division, i.e. `Nat.div`. -/
def numWins (numTimes winSize winSlide : ℕ) : ℕ :=
  1 + (numTimes - winSize) / winSlide

/-- The temporal slice a single location's series contributes to window
`w` (lines 139-143): `offset = win_slide * win`, slice
`[offset, offset + win_size)` of the time axis. -/
def winSlice (row : List ℚ) (winSlide winSize w : ℕ) : List ℚ :=
  (row.drop (winSlide * w)).take winSize

/-- Concrete test fixture: the specification's 3x3 scenario.  Header
`nrows=3, ncols=3, cellsize=1.0, xllcorner=0.0, yllcorner=0.0`, mask
`[[1,1,2],[1,1,2],[3,3,3]]` with row 0 northernmost (descending latitude
axis, `lats = [2.5, 1.5, 0.5]`), no missing cells. -/
def testParentDesc : Region where
  name := "CONAUS"
  regionType := "CONTINENT"
  subRegionLevel := 0
  numLats := 3
  numLons := 3
  dLat := 1
  dLon := 1
  minLat := 0
  minLon := 0
  maxLat := 3
  maxLon := 3
  missingFlag := -9999
  lats := [5/2, 3/2, 1/2]
  lons := [1/2, 3/2, 5/2]
  reversedLats := some true
  topoMaskData := fun r c =>
    (([[1, 1, 2], [1, 1, 2], [3, 3, 3]].getD r []).getD c (-9999))
  topoMaskMask := fun _ _ => false
  numUnmaskedPoints := 9
  hasSubRegionDefs := false
  subRegionFlags := []

/-- Concrete test fixture: the ascending-latitude twin of
`testParentDesc` (`lats = [0.5, 1.5, 2.5]`, orientation flag set to
`False` by hand, as only a hand-assembled region can be ascending). -/
def testParentAsc : Region where
  name := "CONAUS"
  regionType := "CONTINENT"
  subRegionLevel := 0
  numLats := 3
  numLons := 3
  dLat := 1
  dLon := 1
  minLat := 0
  minLon := 0
  maxLat := 3
  maxLon := 3
  missingFlag := -9999
  lats := [1/2, 3/2, 5/2]
  lons := [1/2, 3/2, 5/2]
  reversedLats := some false
  topoMaskData := fun r c =>
    (([[1, 1, 2], [1, 1, 2], [3, 3, 3]].getD r []).getD c (-9999))
  topoMaskMask := fun _ _ => false
  numUnmaskedPoints := 9
  hasSubRegionDefs := false
  subRegionFlags := []

/-- Concrete test fixture: a 2x2 parent (descending latitudes) whose four
cells all store the value `5`; the cell at row 0, column 1 is flagged
missing in the parent's own mask, the other three are valid. -/
def testParentPartMasked : Region where
  name := "PM"
  regionType := "NONE"
  subRegionLevel := 0
  numLats := 2
  numLons := 2
  dLat := 1
  dLon := 1
  minLat := 0
  minLon := 0
  maxLat := 2
  maxLon := 2
  missingFlag := -9999
  lats := [3/2, 1/2]
  lons := [1/2, 3/2]
  reversedLats := some true
  topoMaskData := fun _ _ => 5
  topoMaskMask := fun r c => r == 0 && c == 1
  numUnmaskedPoints := 3
  hasSubRegionDefs := false
  subRegionFlags := []

/-- Concrete test fixture: a valid 1x1 grid header (positive dimensions,
positive cell size). -/
def testHeader1 : GridHeader where
  nrows := 1
  ncols := 1
  xllcorner := 0
  yllcorner := 0
  cellsize := 1
  nodata_value := -9999

/-- Concrete test fixture: a valid 3x3 grid header. -/
def testHeader3 : GridHeader where
  nrows := 3
  ncols := 3
  xllcorner := 0
  yllcorner := 0
  cellsize := 1
  nodata_value := -9999

/-! ### Helper lemmas on index lists -/

lemma mem_filter_range {n : ℕ} {p : ℕ → Bool} {i : ℕ} :
    i ∈ (List.range n).filter p ↔ i < n ∧ p i = true := by
  simp [List.mem_filter, List.mem_range]

lemma filter_range_sorted (n : ℕ) (p : ℕ → Bool) :
    ((List.range n).filter p).Pairwise (· < ·) :=
  (List.pairwise_lt_range n).filter p

lemma sorted_head?_eq {l : List ℕ} {a : ℕ} (hs : l.Pairwise (· < ·))
    (ha : a ∈ l) (hlb : ∀ b ∈ l, a ≤ b) : l.head? = some a := by
  cases l with
  | nil => cases ha
  | cons x xs =>
    have hx : ∀ b ∈ xs, x < b := (List.pairwise_cons.mp hs).1
    have hax : a ≤ x := hlb x (List.mem_cons_self x xs)
    rcases List.mem_cons.mp ha with rfl | hmem
    · rfl
    · exact absurd (hx a hmem) (not_lt.mpr hax)

lemma head?_some_spec {l : List ℕ} {t : ℕ} (hs : l.Pairwise (· < ·))
    (h : l.head? = some t) : t ∈ l ∧ ∀ b ∈ l, t ≤ b := by
  cases l with
  | nil => cases h
  | cons x xs =>
    have hx : ∀ b ∈ xs, x < b := (List.pairwise_cons.mp hs).1
    have hxt : x = t := by simpa using h
    subst hxt
    refine ⟨List.mem_cons_self x xs, ?_⟩
    intro b hb
    rcases List.mem_cons.mp hb with rfl | hmem
    · exact le_refl b
    · exact le_of_lt (hx b hmem)

lemma sorted_getLast?_eq {l : List ℕ} {a : ℕ} (hs : l.Pairwise (· < ·))
    (ha : a ∈ l) (hub : ∀ b ∈ l, b ≤ a) : l.getLast? = some a := by
  induction l with
  | nil => cases ha
  | cons x xs ih =>
    cases xs with
    | nil =>
      rcases List.mem_cons.mp ha with rfl | hmem
      · rfl
      · cases hmem
    | cons y ys =>
      have hx : ∀ b ∈ y :: ys, x < b := (List.pairwise_cons.mp hs).1
      rw [List.getLast?_cons_cons]
      rcases List.mem_cons.mp ha with rfl | hmem
      · exact absurd (hub y (List.mem_cons_of_mem _ (List.mem_cons_self y ys)))
          (not_le.mpr (hx y (List.mem_cons_self y ys)))
      · exact ih (List.pairwise_cons.mp hs).2 hmem
          (fun b hb => hub b (List.mem_cons_of_mem _ hb))

lemma getLast?_some_spec {l : List ℕ} {m : ℕ} (hs : l.Pairwise (· < ·))
    (h : l.getLast? = some m) : m ∈ l ∧ ∀ b ∈ l, b ≤ m := by
  induction l with
  | nil => cases h
  | cons x xs ih =>
    cases xs with
    | nil =>
      have hxm : x = m := by simpa [List.getLast?] using h
      subst hxm
      exact ⟨List.mem_cons_self x [], by intro b hb; rcases List.mem_cons.mp hb with rfl | hb' <;> simp_all⟩
    | cons y ys =>
      rw [List.getLast?_cons_cons] at h
      have hx : ∀ b ∈ y :: ys, x < b := (List.pairwise_cons.mp hs).1
      obtain ⟨hmem, hub⟩ := ih (List.pairwise_cons.mp hs).2 h
      refine ⟨List.mem_cons_of_mem _ hmem, ?_⟩
      intro b hb
      rcases List.mem_cons.mp hb with rfl | hmem'
      · exact le_of_lt (hx m hmem)
      · exact hub b hmem'

lemma foldl_min_spec (xs : List ℕ) (x : ℕ) :
    (xs.foldl min x) ∈ x :: xs ∧ ∀ b ∈ x :: xs, xs.foldl min x ≤ b := by
  induction xs generalizing x with
  | nil => simp
  | cons y ys ih =>
    obtain ⟨hmem, hle⟩ := ih (min x y)
    constructor
    · show List.foldl min (min x y) ys ∈ x :: y :: ys
      rcases List.mem_cons.mp hmem with hf | hf
      · rw [hf]
        rcases min_choice x y with he | he
        · rw [he]; exact List.mem_cons_self _ _
        · rw [he]; exact List.mem_cons_of_mem _ (List.mem_cons_self _ _)
      · exact List.mem_cons_of_mem _ (List.mem_cons_of_mem _ hf)
    · intro b hb
      rcases List.mem_cons.mp hb with rfl | hb'
      · exact le_trans (hle _ (List.mem_cons_self _ _)) (min_le_left _ _)
      · rcases List.mem_cons.mp hb' with rfl | hb''
        · exact le_trans (hle _ (List.mem_cons_self _ _)) (min_le_right _ _)
        · exact hle b (List.mem_cons_of_mem _ hb'')

lemma foldl_max_spec (xs : List ℕ) (x : ℕ) :
    (xs.foldl max x) ∈ x :: xs ∧ ∀ b ∈ x :: xs, b ≤ xs.foldl max x := by
  induction xs generalizing x with
  | nil => simp
  | cons y ys ih =>
    obtain ⟨hmem, hle⟩ := ih (max x y)
    constructor
    · show List.foldl max (max x y) ys ∈ x :: y :: ys
      rcases List.mem_cons.mp hmem with hf | hf
      · rw [hf]
        rcases max_choice x y with he | he
        · rw [he]; exact List.mem_cons_self _ _
        · rw [he]; exact List.mem_cons_of_mem _ (List.mem_cons_self _ _)
      · exact List.mem_cons_of_mem _ (List.mem_cons_of_mem _ hf)
    · intro b hb
      rcases List.mem_cons.mp hb with rfl | hb'
      · exact le_trans (le_max_left _ _) (hle _ (List.mem_cons_self _ _))
      · rcases List.mem_cons.mp hb' with rfl | hb''
        · exact le_trans (le_max_right _ _) (hle _ (List.mem_cons_self _ _))
        · exact hle b (List.mem_cons_of_mem _ hb'')

lemma npMin_eq_some {l : List ℕ} {a : ℕ} (ha : a ∈ l) (hlb : ∀ b ∈ l, a ≤ b) :
    npMin l = some a := by
  cases l with
  | nil => cases ha
  | cons x xs =>
    obtain ⟨hmem, hle⟩ := foldl_min_spec xs x
    have h1 : a ≤ xs.foldl min x := hlb _ hmem
    have h2 : xs.foldl min x ≤ a := hle a ha
    simp [npMin, le_antisymm h2 h1]

lemma npMax_eq_some {l : List ℕ} {a : ℕ} (ha : a ∈ l) (hub : ∀ b ∈ l, b ≤ a) :
    npMax l = some a := by
  cases l with
  | nil => cases ha
  | cons x xs =>
    obtain ⟨hmem, hle⟩ := foldl_max_spec xs x
    have h1 : xs.foldl max x ≤ a := hub _ hmem
    have h2 : a ≤ xs.foldl max x := hle a ha
    simp [npMax, le_antisymm h1 h2]

/-! ### Counting lemmas -/

lemma filter_length_as_sum (p : ℕ → Bool) : ∀ n : ℕ,
    ((List.range n).filter p).length =
      ((List.range n).map (fun c => if p c = true then 1 else 0)).sum := by
  intro n
  induction n with
  | zero => simp
  | succ n ih =>
    rw [List.range_succ, List.filter_append, List.length_append,
      List.map_append, List.sum_append, ih]
    cases hp : p n <;> simp [hp]

lemma sum_range_if_interval (r1 r2 K : ℕ) : ∀ n : ℕ,
    ((List.range n).map (fun r => if r1 ≤ r ∧ r ≤ r2 then K else 0)).sum =
      (min (r2 + 1) n - r1) * K := by
  intro n
  induction n with
  | zero => simp
  | succ n ih =>
    rw [List.range_succ, List.map_append, List.sum_append, ih]
    simp only [List.map_cons, List.map_nil, List.sum_cons, List.sum_nil, add_zero]
    by_cases h1 : r1 ≤ n ∧ n ≤ r2
    · have harith : min (r2 + 1) (n + 1) - r1 = (min (r2 + 1) n - r1) + 1 := by omega
      rw [harith, if_pos h1]
      simp [Nat.succ_mul]
    · by_cases h2 : n < r1
      · have ha : min (r2 + 1) (n + 1) - r1 = 0 := by omega
        have hb : min (r2 + 1) n - r1 = 0 := by omega
        rw [ha, hb, if_neg h1]
        simp
      · have hr2n : r2 < n := by omega
        have ha : min (r2 + 1) (n + 1) = min (r2 + 1) n := by omega
        rw [ha, if_neg h1]
        simp

lemma maCount_const_false {nr nc : ℕ} {mask : ℕ → ℕ → Bool}
    (h : ∀ r < nr, ∀ c < nc, mask r c = false) : maCount nr nc mask = nr * nc := by
  unfold maCount
  have hrow : ∀ r ∈ List.range nr,
      ((List.range nc).filter (fun c => !(mask r c))).length = nc := by
    intro r hr
    have : (List.range nc).filter (fun c => !(mask r c)) = List.range nc := by
      apply List.filter_eq_self.mpr
      intro c hc
      simp [h r (List.mem_range.mp hr) c (List.mem_range.mp hc)]
    rw [this, List.length_range]
  rw [List.map_congr_left hrow]
  simp [List.map_const', mul_comm]

lemma countEq_block {P : Region} {v : ℚ} {r1 r2 c1 c2 : ℕ}
    (hr12 : r1 ≤ r2) (hr2 : r2 < P.numLats) (hc12 : c1 ≤ c2) (hc2 : c2 < P.numLons)
    (hblock : ∀ r c, r < P.numLats → c < P.numLons →
      (P.topoMaskData r c = v ↔ (r1 ≤ r ∧ r ≤ r2 ∧ c1 ≤ c ∧ c ≤ c2))) :
    countEq P v = (r2 + 1 - r1) * (c2 + 1 - c1) := by
  unfold countEq
  have hrow : ∀ r ∈ List.range P.numLats,
      ((List.range P.numLons).filter (fun c => decide (P.topoMaskData r c = v))).length =
        if r1 ≤ r ∧ r ≤ r2 then (c2 + 1 - c1) else 0 := by
    intro r hr
    have hrn := List.mem_range.mp hr
    by_cases hrb : r1 ≤ r ∧ r ≤ r2
    · rw [if_pos hrb]
      rw [filter_length_as_sum]
      have hcong : ∀ c ∈ List.range P.numLons,
          (if decide (P.topoMaskData r c = v) = true then 1 else 0) =
            (if c1 ≤ c ∧ c ≤ c2 then 1 else 0) := by
        intro c hc
        have hcn := List.mem_range.mp hc
        by_cases hcb : c1 ≤ c ∧ c ≤ c2
        · rw [if_pos hcb, if_pos]
          simp only [decide_eq_true_eq]
          exact (hblock r c hrn hcn).mpr ⟨hrb.1, hrb.2, hcb.1, hcb.2⟩
        · rw [if_neg hcb, if_neg]
          simp only [decide_eq_true_eq]
          intro hd
          exact hcb ⟨((hblock r c hrn hcn).mp hd).2.2.1, ((hblock r c hrn hcn).mp hd).2.2.2⟩
      rw [List.map_congr_left hcong, sum_range_if_interval]
      have : min (c2 + 1) P.numLons = c2 + 1 := by omega
      rw [this, mul_one]
    · rw [if_neg hrb]
      have : (List.range P.numLons).filter (fun c => decide (P.topoMaskData r c = v)) = [] := by
        apply List.filter_eq_nil_iff.mpr
        intro c hc
        simp only [decide_eq_true_eq]
        intro hd
        exact hrb ⟨((hblock r c hrn (List.mem_range.mp hc)).mp hd).1,
          ((hblock r c hrn (List.mem_range.mp hc)).mp hd).2.1⟩
      rw [this]
      rfl
  rw [List.map_congr_left hrow, sum_range_if_interval]
  have : min (r2 + 1) P.numLats = r2 + 1 := by omega
  rw [this]

/-! ### Axis index-window lemmas -/

lemma getD_of_getElem? {l : List ℚ} {i : ℕ} {x : ℚ} (h : l[i]? = some x) :
    l.getD i 0 = x := by
  rw [List.getD_eq_getElem?_getD, h]
  rfl

lemma asc_ge_filter {xs : List ℚ} {x0 d : ℚ} {a : ℕ} (hd : 0 < d)
    (hxs : ∀ i, i < xs.length → xs[i]? = some (x0 + (i : ℚ) * d)) (ha : a < xs.length) :
    ((List.range xs.length).filter
      (fun i => decide (x0 + (a : ℚ) * d - d / 2 ≤ xs.getD i 0))).head? = some a := by
  apply sorted_head?_eq (filter_range_sorted _ _)
  · rw [mem_filter_range]
    refine ⟨ha, ?_⟩
    rw [getD_of_getElem? (hxs a ha)]
    simp only [decide_eq_true_eq]
    linarith
  · intro b hb
    rw [mem_filter_range] at hb
    obtain ⟨hbn, hble⟩ := hb
    rw [getD_of_getElem? (hxs b hbn)] at hble
    simp only [decide_eq_true_eq] at hble
    by_contra hab
    push_neg at hab
    have h1 : (b : ℚ) + 1 ≤ (a : ℚ) := by exact_mod_cast hab
    have h2 : d * 1 ≤ d * ((a : ℚ) - b) := by
      apply mul_le_mul_of_nonneg_left _ (le_of_lt hd)
      linarith
    linarith

lemma asc_le_filter {xs : List ℚ} {x0 d : ℚ} {a : ℕ} (hd : 0 < d)
    (hxs : ∀ i, i < xs.length → xs[i]? = some (x0 + (i : ℚ) * d)) (ha : a < xs.length) :
    ((List.range xs.length).filter
      (fun i => decide (xs.getD i 0 ≤ x0 + (a : ℚ) * d + d / 2))).getLast? = some a := by
  apply sorted_getLast?_eq (filter_range_sorted _ _)
  · rw [mem_filter_range]
    refine ⟨ha, ?_⟩
    rw [getD_of_getElem? (hxs a ha)]
    simp only [decide_eq_true_eq]
    linarith
  · intro b hb
    rw [mem_filter_range] at hb
    obtain ⟨hbn, hble⟩ := hb
    rw [getD_of_getElem? (hxs b hbn)] at hble
    simp only [decide_eq_true_eq] at hble
    by_contra hab
    push_neg at hab
    have h1 : (a : ℚ) + 1 ≤ (b : ℚ) := by exact_mod_cast hab
    have h2 : d * 1 ≤ d * ((b : ℚ) - a) := by
      apply mul_le_mul_of_nonneg_left _ (le_of_lt hd)
      linarith
    linarith

lemma desc_ge_filter {xs : List ℚ} {x0 d : ℚ} {a : ℕ} (hd : 0 < d)
    (hxs : ∀ i, i < xs.length → xs[i]? = some (x0 - (i : ℚ) * d)) (ha : a < xs.length) :
    ((List.range xs.length).filter
      (fun i => decide (x0 - (a : ℚ) * d - d / 2 ≤ xs.getD i 0))).getLast? = some a := by
  apply sorted_getLast?_eq (filter_range_sorted _ _)
  · rw [mem_filter_range]
    refine ⟨ha, ?_⟩
    rw [getD_of_getElem? (hxs a ha)]
    simp only [decide_eq_true_eq]
    linarith
  · intro b hb
    rw [mem_filter_range] at hb
    obtain ⟨hbn, hble⟩ := hb
    rw [getD_of_getElem? (hxs b hbn)] at hble
    simp only [decide_eq_true_eq] at hble
    by_contra hab
    push_neg at hab
    have h1 : (a : ℚ) + 1 ≤ (b : ℚ) := by exact_mod_cast hab
    have h2 : d * 1 ≤ d * ((b : ℚ) - a) := by
      apply mul_le_mul_of_nonneg_left _ (le_of_lt hd)
      linarith
    linarith

lemma desc_le_filter {xs : List ℚ} {x0 d : ℚ} {a : ℕ} (hd : 0 < d)
    (hxs : ∀ i, i < xs.length → xs[i]? = some (x0 - (i : ℚ) * d)) (ha : a < xs.length) :
    ((List.range xs.length).filter
      (fun i => decide (xs.getD i 0 ≤ x0 - (a : ℚ) * d + d / 2))).head? = some a := by
  apply sorted_head?_eq (filter_range_sorted _ _)
  · rw [mem_filter_range]
    refine ⟨ha, ?_⟩
    rw [getD_of_getElem? (hxs a ha)]
    simp only [decide_eq_true_eq]
    linarith
  · intro b hb
    rw [mem_filter_range] at hb
    obtain ⟨hbn, hble⟩ := hb
    rw [getD_of_getElem? (hxs b hbn)] at hble
    simp only [decide_eq_true_eq] at hble
    by_contra hab
    push_neg at hab
    have h1 : (b : ℚ) + 1 ≤ (a : ℚ) := by exact_mod_cast hab
    have h2 : d * 1 ≤ d * ((a : ℚ) - b) := by
      apply mul_le_mul_of_nonneg_left _ (le_of_lt hd)
      linarith
    linarith

lemma latWindow_desc {lats : List ℚ} {lat0 d : ℚ} {r1 r2 : ℕ} (hd : 0 < d)
    (hlat : ∀ i, i < lats.length → lats[i]? = some (lat0 - (i : ℚ) * d))
    (hr12 : r1 ≤ r2) (hr2 : r2 < lats.length) :
    latWindow lats true (lat0 - (r2 : ℚ) * d - d / 2) (lat0 - (r1 : ℚ) * d + d / 2) =
      .ok (r2, r1, r1, r2 + 1) := by
  unfold latWindow
  rw [if_pos rfl]
  rw [desc_ge_filter hd hlat hr2, desc_le_filter hd hlat (lt_of_le_of_lt hr12 hr2)]

lemma latWindow_asc {lats : List ℚ} {lat0 d : ℚ} {r1 r2 : ℕ} (hd : 0 < d)
    (hlat : ∀ i, i < lats.length → lats[i]? = some (lat0 + (i : ℚ) * d))
    (hr12 : r1 ≤ r2) (hr2 : r2 < lats.length) :
    latWindow lats false (lat0 + (r1 : ℚ) * d - d / 2) (lat0 + (r2 : ℚ) * d + d / 2) =
      .ok (r1, r2, r1, r2 + 1) := by
  unfold latWindow
  rw [if_neg (by simp)]
  rw [asc_ge_filter hd hlat (lt_of_le_of_lt hr12 hr2), asc_le_filter hd hlat hr2]

lemma lonWindow_win {lons : List ℚ} {lon0 d : ℚ} {c1 c2 : ℕ} (hd : 0 < d)
    (hlon : ∀ j, j < lons.length → lons[j]? = some (lon0 + (j : ℚ) * d))
    (hc12 : c1 ≤ c2) (hc2 : c2 < lons.length) :
    lonWindow lons (lon0 + (c1 : ℚ) * d - d / 2) (lon0 + (c2 : ℚ) * d + d / 2) =
      .ok (c1, c2, c1, c2 + 1) := by
  simp only [lonWindow]
  rw [asc_ge_filter hd hlon (lt_of_le_of_lt hc12 hc2), asc_le_filter hd hlon hc2]

/-! ### Match-scan lemmas for a rectangular block -/

lemma mem_whereRows {P : Region} {v : ℚ} {r : ℕ} :
    r ∈ whereRows P v ↔ r < P.numLats ∧
      ∃ c, c < P.numLons ∧ P.topoMaskMask r c = false ∧ P.topoMaskData r c = v := by
  simp [whereRows, List.mem_filter, List.mem_range, List.any_eq_true, and_assoc]

lemma mem_whereCols {P : Region} {v : ℚ} {c : ℕ} :
    c ∈ whereCols P v ↔ c < P.numLons ∧
      ∃ r, r < P.numLats ∧ P.topoMaskMask r c = false ∧ P.topoMaskData r c = v := by
  simp [whereCols, List.mem_filter, List.mem_range, List.any_eq_true, and_assoc]

lemma whereRows_minmax {P : Region} {v : ℚ} {r1 r2 c1 c2 : ℕ}
    (hr12 : r1 ≤ r2) (hr2 : r2 < P.numLats) (hc12 : c1 ≤ c2) (hc2 : c2 < P.numLons)
    (hblock : ∀ r c, r < P.numLats → c < P.numLons →
      (P.topoMaskData r c = v ↔ (r1 ≤ r ∧ r ≤ r2 ∧ c1 ≤ c ∧ c ≤ c2)))
    (hm1 : P.topoMaskMask r1 c1 = false) (hm2 : P.topoMaskMask r2 c2 = false) :
    npMin (whereRows P v) = some r1 ∧ npMax (whereRows P v) = some r2 := by
  have hc1n : c1 < P.numLons := lt_of_le_of_lt hc12 hc2
  have hr1n : r1 < P.numLats := lt_of_le_of_lt hr12 hr2
  have hmem1 : r1 ∈ whereRows P v := by
    rw [mem_whereRows]
    exact ⟨hr1n, c1, hc1n, hm1,
      (hblock r1 c1 hr1n hc1n).mpr ⟨le_refl r1, hr12, le_refl c1, hc12⟩⟩
  have hmem2 : r2 ∈ whereRows P v := by
    rw [mem_whereRows]
    exact ⟨hr2, c2, hc2, hm2,
      (hblock r2 c2 hr2 hc2).mpr ⟨hr12, le_refl r2, hc12, le_refl c2⟩⟩
  constructor
  · apply npMin_eq_some hmem1
    intro bb hbb
    rw [mem_whereRows] at hbb
    obtain ⟨hbn, c, hcn, -, hd⟩ := hbb
    exact ((hblock bb c hbn hcn).mp hd).1
  · apply npMax_eq_some hmem2
    intro bb hbb
    rw [mem_whereRows] at hbb
    obtain ⟨hbn, c, hcn, -, hd⟩ := hbb
    exact ((hblock bb c hbn hcn).mp hd).2.1

lemma whereCols_minmax {P : Region} {v : ℚ} {r1 r2 c1 c2 : ℕ}
    (hr12 : r1 ≤ r2) (hr2 : r2 < P.numLats) (hc12 : c1 ≤ c2) (hc2 : c2 < P.numLons)
    (hblock : ∀ r c, r < P.numLats → c < P.numLons →
      (P.topoMaskData r c = v ↔ (r1 ≤ r ∧ r ≤ r2 ∧ c1 ≤ c ∧ c ≤ c2)))
    (hm1 : P.topoMaskMask r1 c1 = false) (hm2 : P.topoMaskMask r2 c2 = false) :
    npMin (whereCols P v) = some c1 ∧ npMax (whereCols P v) = some c2 := by
  have hc1n : c1 < P.numLons := lt_of_le_of_lt hc12 hc2
  have hr1n : r1 < P.numLats := lt_of_le_of_lt hr12 hr2
  have hmem1 : c1 ∈ whereCols P v := by
    rw [mem_whereCols]
    exact ⟨hc1n, r1, hr1n, hm1,
      (hblock r1 c1 hr1n hc1n).mpr ⟨le_refl r1, hr12, le_refl c1, hc12⟩⟩
  have hmem2 : c2 ∈ whereCols P v := by
    rw [mem_whereCols]
    exact ⟨hc2, r2, hr2, hm2,
      (hblock r2 c2 hr2 hc2).mpr ⟨hr12, le_refl r2, hc12, le_refl c2⟩⟩
  constructor
  · apply npMin_eq_some hmem1
    intro bb hbb
    rw [mem_whereCols] at hbb
    obtain ⟨hbn, r, hrn, -, hd⟩ := hbb
    exact ((hblock r bb hrn hbn).mp hd).2.2.1
  · apply npMax_eq_some hmem2
    intro bb hbb
    rw [mem_whereCols] at hbb
    obtain ⟨hbn, r, hrn, -, hd⟩ := hbb
    exact ((hblock r bb hrn hbn).mp hd).2.2.2

/-- Full evaluation of `SubRegion.__init__` in automatic mode on a parent
whose raw mask values equal `float(k)` exactly on the rectangular index
block `[r1, r2] × [c1, c2]`, for a uniformly spaced latitude axis of either
orientation (`b = true`: descending, `b = false`: ascending) and an
ascending longitude axis. -/
lemma subRegion_make_block (P : Region) (k : ℤ) (b : Bool) (lat0 lon0 : ℚ)
    (r1 r2 c1 c2 : ℕ) (RegionName RegionType : Option String)
    (hrev : P.reversedLats = some b)
    (hlatlen : P.lats.length = P.numLats) (hlonlen : P.lons.length = P.numLons)
    (hdLat : 0 < P.dLat) (hdLon : 0 < P.dLon)
    (hlat : ∀ i, i < P.numLats →
      P.lats[i]? = some (lat0 + (i : ℚ) * (if b then -P.dLat else P.dLat)))
    (hlon : ∀ j, j < P.numLons → P.lons[j]? = some (lon0 + (j : ℚ) * P.dLon))
    (hr12 : r1 ≤ r2) (hr2 : r2 < P.numLats) (hc12 : c1 ≤ c2) (hc2 : c2 < P.numLons)
    (hblock : ∀ r c, r < P.numLats → c < P.numLons →
      (P.topoMaskData r c = (k : ℚ) ↔ (r1 ≤ r ∧ r ≤ r2 ∧ c1 ≤ c ∧ c ≤ c2)))
    (hm1 : P.topoMaskMask r1 c1 = false) (hm2 : P.topoMaskMask r2 c2 = false) :
    SubRegion.make P k none RegionName RegionType = .ok
      { name := RegionName.getD "NONE"
        regionType := RegionType.getD "NONE"
        subRegionLevel := P.subRegionLevel + 1
        numLats := r2 + 1 - r1
        numLons := c2 + 1 - c1
        dLat := P.dLat
        dLon := P.dLon
        minLat := (lat0 + (if b then (r2 : ℚ) else (r1 : ℚ)) *
          (if b then -P.dLat else P.dLat)) - P.dLat / 2
        minLon := lon0 + (c1 : ℚ) * P.dLon - P.dLon / 2
        maxLat := (lat0 + (if b then (r1 : ℚ) else (r2 : ℚ)) *
          (if b then -P.dLat else P.dLat)) + P.dLat / 2
        maxLon := lon0 + (c2 : ℚ) * P.dLon + P.dLon / 2
        missingFlag := P.missingFlag
        lats := (P.lats.drop r1).take (r2 + 1 - r1)
        lons := (P.lons.drop c1).take (c2 + 1 - c1)
        reversedLats := some b
        topoMaskData := fun r c => P.topoMaskData (r1 + r) (c1 + c)
        topoMaskMask := fun r c => decide (P.topoMaskData (r1 + r) (c1 + c) ≠ (k : ℚ))
        numUnmaskedPoints := (r2 + 1 - r1) * (c2 + 1 - c1)
        hasSubRegionDefs := false
        subRegionFlags := []
        parentName := P.name
        parentRegType := P.regionType
        regionID := k
        parentMinLatIndex := if b then r2 else r1
        parentMaxLatIndex := if b then r1 else r2
        parentMinLonIndex := c1
        parentMaxLonIndex := c2
        parentLatStart := r1
        parentLatStop := r2 + 1
        parentLonStart := c1
        parentLonStop := c2 + 1 } := by
  have hr1n : r1 < P.numLats := lt_of_le_of_lt hr12 hr2
  have hc1n : c1 < P.numLons := lt_of_le_of_lt hc12 hc2
  obtain ⟨hrmin, hrmax⟩ := whereRows_minmax hr12 hr2 hc12 hc2 hblock hm1 hm2
  obtain ⟨hcmin, hcmax⟩ := whereCols_minmax hr12 hr2 hc12 hc2 hblock hm1 hm2
  have hlonc1 := hlon c1 hc1n
  have hlonc2 := hlon c2 hc2
  have hcount : maCount (r2 + 1 - r1) (c2 + 1 - c1)
      (fun r c => !decide (P.topoMaskData (r1 + r) (c1 + c) = (k : ℚ))) =
      (r2 + 1 - r1) * (c2 + 1 - c1) := by
    apply maCount_const_false
    intro r hr c hc
    have hdata : P.topoMaskData (r1 + r) (c1 + c) = (k : ℚ) := by
      apply (hblock (r1 + r) (c1 + c) (by omega) (by omega)).mpr
      omega
    simp [hdata]
  cases b with
  | true =>
    have hlat' : ∀ i, i < P.lats.length → P.lats[i]? = some (lat0 - (i : ℚ) * P.dLat) := by
      intro i hi
      rw [hlat i (hlatlen ▸ hi)]
      simp only [if_true, Option.some.injEq]
      ring
    have hlatr1 := hlat r1 hr1n
    have hlatr2 := hlat r2 hr2
    have hbox : boxOf P k none true = .ok
        (lon0 + (c1 : ℚ) * P.dLon - P.dLon / 2,
         (lat0 + (r2 : ℚ) * -P.dLat) - P.dLat / 2,
         lon0 + (c2 : ℚ) * P.dLon + P.dLon / 2,
         (lat0 + (r1 : ℚ) * -P.dLat) + P.dLat / 2) := by
      simp [boxOf, hcmin, hcmax, hrmin, hrmax, hlonc1, hlonc2, hlatr1, hlatr2]
    have hlatwin : latWindow P.lats true ((lat0 + (r2 : ℚ) * -P.dLat) - P.dLat / 2)
        ((lat0 + (r1 : ℚ) * -P.dLat) + P.dLat / 2) = .ok (r2, r1, r1, r2 + 1) := by
      have he1 : (lat0 + (r2 : ℚ) * -P.dLat) - P.dLat / 2 =
          lat0 - (r2 : ℚ) * P.dLat - P.dLat / 2 := by ring
      have he2 : (lat0 + (r1 : ℚ) * -P.dLat) + P.dLat / 2 =
          lat0 - (r1 : ℚ) * P.dLat + P.dLat / 2 := by ring
      rw [he1, he2]
      exact latWindow_desc hdLat hlat' hr12 (hlatlen ▸ hr2)
    have hlonwin : lonWindow P.lons (lon0 + (c1 : ℚ) * P.dLon - P.dLon / 2)
        (lon0 + (c2 : ℚ) * P.dLon + P.dLon / 2) = .ok (c1, c2, c1, c2 + 1) := by
      have hlon' : ∀ j, j < P.lons.length → P.lons[j]? = some (lon0 + (j : ℚ) * P.dLon) :=
        fun j hj => hlon j (hlonlen ▸ hj)
      exact lonWindow_win hdLon hlon' hc12 (hlonlen ▸ hc2)
    simp only [SubRegion.make, hrev, hbox, hlatwin, hlonwin]
    simp only [Except.ok.injEq, SubRegion.mk.injEq, Region.mk.injEq]
    simp [hcount]
  | false =>
    have hlat' : ∀ i, i < P.lats.length → P.lats[i]? = some (lat0 + (i : ℚ) * P.dLat) := by
      intro i hi
      rw [hlat i (hlatlen ▸ hi)]
      simp
    have hlatr1 := hlat r1 hr1n
    have hlatr2 := hlat r2 hr2
    have hbox : boxOf P k none false = .ok
        (lon0 + (c1 : ℚ) * P.dLon - P.dLon / 2,
         (lat0 + (r1 : ℚ) * P.dLat) - P.dLat / 2,
         lon0 + (c2 : ℚ) * P.dLon + P.dLon / 2,
         (lat0 + (r2 : ℚ) * P.dLat) + P.dLat / 2) := by
      simp [boxOf, hcmin, hcmax, hrmin, hrmax, hlonc1, hlonc2, hlatr1, hlatr2]
    have hlatwin : latWindow P.lats false ((lat0 + (r1 : ℚ) * P.dLat) - P.dLat / 2)
        ((lat0 + (r2 : ℚ) * P.dLat) + P.dLat / 2) = .ok (r1, r2, r1, r2 + 1) :=
      latWindow_asc hdLat hlat' hr12 (hlatlen ▸ hr2)
    have hlonwin : lonWindow P.lons (lon0 + (c1 : ℚ) * P.dLon - P.dLon / 2)
        (lon0 + (c2 : ℚ) * P.dLon + P.dLon / 2) = .ok (c1, c2, c1, c2 + 1) := by
      have hlon' : ∀ j, j < P.lons.length → P.lons[j]? = some (lon0 + (j : ℚ) * P.dLon) :=
        fun j hj => hlon j (hlonlen ▸ hj)
      exact lonWindow_win hdLon hlon' hc12 (hlonlen ▸ hc2)
    simp only [SubRegion.make, hrev, hbox, hlatwin, hlonwin]
    simp only [Except.ok.injEq, SubRegion.mk.injEq, Region.mk.injEq]
    simp [hcount]

/-! ### Inversion of a successful SubRegion construction -/

lemma subRegion_make_ok_inv {P : Region} {k : ℤ} {bb : Option (ℚ × ℚ × ℚ × ℚ)}
    {nm rt : Option String} {ch : SubRegion}
    (h : SubRegion.make P k bb nm rt = .ok ch) :
    ∃ rev minLon minLat maxLon maxLat,
      P.reversedLats = some rev ∧
      boxOf P k bb rev = .ok (minLon, minLat, maxLon, maxLat) ∧
      latWindow P.lats rev minLat maxLat =
        .ok (ch.parentMinLatIndex, ch.parentMaxLatIndex,
             ch.parentLatStart, ch.parentLatStop) ∧
      lonWindow P.lons minLon maxLon =
        .ok (ch.parentMinLonIndex, ch.parentMaxLonIndex,
             ch.parentLonStart, ch.parentLonStop) ∧
      ch.reversedLats = some rev ∧
      ch.minLat = minLat ∧ ch.maxLat = maxLat ∧
      ch.minLon = minLon ∧ ch.maxLon = maxLon ∧
      ch.subRegionLevel = P.subRegionLevel + 1 ∧
      ch.hasSubRegionDefs = false ∧
      ch.numLats = ch.parentLatStop - ch.parentLatStart ∧
      ch.numLons = ch.parentLonStop - ch.parentLonStart ∧
      (∀ r c, ch.topoMaskData r c =
        P.topoMaskData (ch.parentLatStart + r) (ch.parentLonStart + c)) ∧
      (∀ r c, ch.topoMaskMask r c =
        decide (P.topoMaskData (ch.parentLatStart + r) (ch.parentLonStart + c) ≠ (k : ℚ))) ∧
      ch.numUnmaskedPoints = maCount ch.numLats ch.numLons ch.topoMaskMask ∧
      ch.regionID = k := by
  unfold SubRegion.make at h
  cases hrev : P.reversedLats with
  | none => simp only [hrev] at h; cases h
  | some rev =>
    simp only [hrev] at h
    cases hbox : boxOf P k bb rev with
    | error e => simp only [hbox] at h; cases h
    | ok box =>
      obtain ⟨minLon, minLat, maxLon, maxLat⟩ := box
      simp only [hbox] at h
      cases hlatw : latWindow P.lats rev minLat maxLat with
      | error e => simp only [hlatw] at h; cases h
      | ok latQuad =>
        obtain ⟨pMinLatIdx, pMaxLatIdx, latStart, latStop⟩ := latQuad
        simp only [hlatw] at h
        cases hlonw : lonWindow P.lons minLon maxLon with
        | error e => simp only [hlonw] at h; cases h
        | ok lonQuad =>
          obtain ⟨pMinLonIdx, pMaxLonIdx, lonStart, lonStop⟩ := lonQuad
          simp only [hlonw] at h
          simp only [Except.ok.injEq] at h
          subst h
          exact ⟨rev, minLon, minLat, maxLon, maxLat, rfl, hbox, hlatw, hlonw,
            rfl, rfl, rfl, rfl, rfl, rfl, rfl, rfl, rfl,
            fun r c => rfl, fun r c => rfl, rfl, rfl⟩

/-! ### Empty-scan behaviour (absent category id) -/

lemma whereCols_nil {P : Region} {v : ℚ}
    (hnone : ∀ r c, r < P.numLats → c < P.numLons → P.topoMaskData r c ≠ v) :
    whereCols P v = [] := by
  apply List.filter_eq_nil_iff.mpr
  intro c hc
  simp only [List.any_eq_true, List.mem_range, Bool.and_eq_true, decide_eq_true_eq,
    not_exists, not_and]
  intro r hr _
  exact hnone r c hr (List.mem_range.mp hc)

lemma boxOf_auto_empty (P : Region) (k : ℤ) (rev : Bool)
    (hnone : ∀ r c, r < P.numLats → c < P.numLons → P.topoMaskData r c ≠ (k : ℚ)) :
    boxOf P k none rev = .error .valueError := by
  unfold boxOf
  rw [whereCols_nil hnone]
  rfl

/-! ### KL-divergence lemmas -/

lemma KLD_specification_cons (log2 : ℚ → ℚ) (dx a b : ℚ) (p q : List ℚ) :
    KLD_specification log2 (a :: p) (b :: q) dx =
      (if 0 < a ∧ 0 < b then a * log2 (a / b) * dx else 0) +
        KLD_specification log2 p q dx := by
  unfold KLD_specification
  simp only [List.length_cons, List.range_succ_eq_map, List.map_cons, List.sum_cons,
    List.map_map, Function.comp_def, List.getD_cons_zero, List.getD_cons_succ]

lemma kld_foldl (log2 : ℚ → ℚ) (dx : ℚ) : ∀ (p q : List ℚ), p.length = q.length →
    ∀ acc : ℚ,
    (p.zip q).foldl
      (fun kld pq => if pq.1 ≤ 0 ∨ pq.2 ≤ 0 then kld
                     else kld + pq.1 * log2 (pq.1 / pq.2) * dx) acc =
      acc + KLD_specification log2 p q dx := by
  intro p
  induction p with
  | nil =>
    intro q hlen acc
    have : q = [] := List.eq_nil_of_length_eq_zero hlen.symm
    subst this
    simp [KLD_specification]
  | cons a p' ih =>
    intro q hlen acc
    cases q with
    | nil => cases hlen
    | cons b q' =>
      simp only [List.zip_cons_cons, List.foldl_cons]
      rw [ih q' (by simpa using hlen), KLD_specification_cons]
      by_cases hc : a ≤ 0 ∨ b ≤ 0
      · rw [if_pos hc, if_neg]
        · ring
        · intro hpos
          rcases hc with hc | hc
          · exact absurd hpos.1 (not_lt.mpr hc)
          · exact absurd hpos.2 (not_lt.mpr hc)
      · push_neg at hc
        rw [if_neg (by intro hor; rcases hor with hor | hor
              <;> [exact absurd hor (not_le.mpr hc.1); exact absurd hor (not_le.mpr hc.2)]),
          if_pos ⟨hc.1, hc.2⟩]
        ring

lemma KLD_specification_self (log2 : ℚ → ℚ) (dx : ℚ) (p : List ℚ)
    (hlog : log2 1 = 0) : KLD_specification log2 p p dx = 0 := by
  unfold KLD_specification
  apply List.sum_eq_zero
  intro x hx
  obtain ⟨b, _, hb⟩ := List.mem_map.mp hx
  by_cases hpos : 0 < p.getD b 0 ∧ 0 < p.getD b 0
  · rw [if_pos hpos] at hb
    rw [div_self (ne_of_gt hpos.1), hlog] at hb
    simpa using hb.symm
  · rw [if_neg hpos] at hb
    exact hb.symm

/-! ### Coordinate-axis lemmas -/

lemma getLons_getElem (h : GridHeader) {j : ℕ} (hj : j < h.ncols) :
    (getLons h)[j]? = some (h.xllcorner + h.cellsize / 2 + (j : ℚ) * h.cellsize) := by
  unfold getLons
  rw [List.getElem?_map, List.getElem?_range hj]
  rfl

lemma getLats_length (h : GridHeader) : (getLats h true).length = h.nrows := by
  unfold getLats
  rw [if_pos rfl, List.length_reverse, List.length_map, List.length_range]

lemma getLons_length (h : GridHeader) : (getLons h).length = h.ncols := by
  unfold getLons
  rw [List.length_map, List.length_range]

lemma getLats_getElem (h : GridHeader) {i : ℕ} (hi : i < h.nrows) :
    (getLats h true)[i]? =
      some (h.yllcorner + h.cellsize / 2 + ((h.nrows - 1 - i : ℕ) : ℚ) * h.cellsize) := by
  have hlen : ((List.range h.nrows).map
      (fun (i : ℕ) => h.yllcorner + h.cellsize / 2 + (i : ℚ) * h.cellsize)).length = h.nrows := by
    rw [List.length_map, List.length_range]
  have hi' : i < ((List.range h.nrows).map
      (fun (i : ℕ) => h.yllcorner + h.cellsize / 2 + (i : ℚ) * h.cellsize)).length := by
    rw [hlen]; exact hi
  show ((List.range h.nrows).map
      (fun (i : ℕ) => h.yllcorner + h.cellsize / 2 + (i : ℚ) * h.cellsize)).reverse[i]? = _
  rw [List.getElem?_reverse hi', hlen]
  rw [List.getElem?_map, List.getElem?_range (show h.nrows - 1 - i < h.nrows by omega)]
  rfl

lemma getLons_pairwise (h : GridHeader) (hcs : 0 < h.cellsize) :
    (getLons h).Pairwise (· < ·) := by
  unfold getLons
  rw [List.pairwise_map]
  apply (List.pairwise_lt_range h.ncols).imp
  intro i j hij
  have : (i : ℚ) < (j : ℚ) := by exact_mod_cast hij
  have := mul_lt_mul_of_pos_right this hcs
  linarith

lemma getLats_pairwise (h : GridHeader) (hcs : 0 < h.cellsize) :
    (getLats h true).Pairwise (· > ·) := by
  show ((List.range h.nrows).map
      (fun (i : ℕ) => h.yllcorner + h.cellsize / 2 + (i : ℚ) * h.cellsize)).reverse.Pairwise _
  rw [List.pairwise_reverse, List.pairwise_map]
  apply (List.pairwise_lt_range h.nrows).imp
  intro i j hij
  have : (i : ℚ) < (j : ℚ) := by exact_mod_cast hij
  have := mul_lt_mul_of_pos_right this hcs
  show _ > _
  simp only [gt_iff_lt]
  linarith

/-! ### Region constructor inversion -/

lemma Region_make_ok_inv {h : GridHeader} {nm rt : Option String} {s : Bool}
    {data : ℕ → ℕ → ℚ} {dataMask : ℕ → ℕ → Bool} {lut : List (String × ℤ)} {R : Region}
    (hmk : Region.make h nm rt s data dataMask lut = .ok R) :
    ∃ lastL firstL, (getLats h true).getLast? = some lastL ∧
      (getLats h true).head? = some firstL ∧
      R.reversedLats = (if lastL < firstL then some true else none) ∧
      R.lats = getLats h true ∧ R.lons = getLons h ∧
      R.numLats = h.nrows ∧ R.numLons = h.ncols ∧
      R.topoMaskData = data ∧ R.topoMaskMask = dataMask ∧
      R.numUnmaskedPoints = maCount h.nrows h.ncols dataMask := by
  unfold Region.make at hmk
  cases hlast : (getLats h true).getLast? with
  | none => simp only [hlast] at hmk; cases hmk
  | some lastL =>
    simp only [hlast] at hmk
    cases hhead : (getLats h true).head? with
    | none => simp only [hhead] at hmk; cases hmk
    | some firstL =>
      simp only [hhead, Except.ok.injEq] at hmk
      subst hmk
      exact ⟨lastL, firstL, rfl, rfl, rfl, rfl, rfl, rfl, rfl, rfl, rfl, rfl⟩

/-! ### Claim theorems -/

/-- C4: for equal-length density vectors, `compute_KLD` returns exactly the
sum over bins `b` with `p[b] > 0` and `q[b] > 0` of
`p[b] * log2(p[b]/q[b]) * dx` (every bin where either density is zero or
negative contributes exactly zero, and the result is always a defined
rational, never NaN), and consequently for identical vectors `p == q` the
result is `0` (using only `log2 1 = 0`, a property of the real base-2
logarithm). -/
theorem compute_KLD_truncation_and_self (log2 : ℚ → ℚ) (p q : List ℚ) (dx : ℚ)
    (hlen : p.length = q.length) (hlog : log2 1 = 0) :
    compute_KLD log2 p q dx = some (KLD_specification log2 p q dx) ∧
    compute_KLD log2 p p dx = some 0 := by
  constructor
  · unfold compute_KLD
    rw [if_neg (by simp [hlen])]
    rw [kld_foldl log2 dx p q hlen 0, zero_add]
  · unfold compute_KLD
    rw [if_neg (by simp)]
    rw [kld_foldl log2 dx p p rfl 0, zero_add, KLD_specification_self log2 dx p hlog]

theorem compute_KLD_truncation_and_self_witness :
    compute_KLD (fun x => if x = 1 then 0 else 1) [1/2, 1/2] [1/4, 0] 1 =
      some (KLD_specification (fun x => if x = 1 then 0 else 1) [1/2, 1/2] [1/4, 0] 1) ∧
    compute_KLD (fun x => if x = 1 then 0 else 1) [1/2, 1/2] [1/2, 1/2] 1 = some 0 :=
  compute_KLD_truncation_and_self _ _ _ _ rfl (by norm_num)

/-- C8: for a valid grid header, the cell-center latitude sequence has
length `nrows` and consists of the values
`yllcorner + 0.5*cellsize + i*cellsize` (`i = 0..nrows-1`) in descending
order by default, and the longitudes have length `ncols` and are
`xllcorner + 0.5*cellsize + j*cellsize` in ascending order. -/
theorem getLats_getLons_spec (h : GridHeader)
    (hrows : 0 < h.nrows) (hcols : 0 < h.ncols) (hcs : 0 < h.cellsize) :
    (getLats h true).length = h.nrows ∧ (getLons h).length = h.ncols ∧
    (∀ i, i < h.nrows → (getLats h true)[i]? =
      some (h.yllcorner + h.cellsize / 2 + ((h.nrows - 1 - i : ℕ) : ℚ) * h.cellsize)) ∧
    (getLats h true).Pairwise (· > ·) ∧
    (∀ j, j < h.ncols → (getLons h)[j]? =
      some (h.xllcorner + h.cellsize / 2 + (j : ℚ) * h.cellsize)) ∧
    (getLons h).Pairwise (· < ·) :=
  ⟨getLats_length h, getLons_length h, fun _ hi => getLats_getElem h hi,
   getLats_pairwise h hcs, fun _ hj => getLons_getElem h hj, getLons_pairwise h hcs⟩

theorem getLats_getLons_spec_witness :
    (getLats testHeader3 true).length = testHeader3.nrows ∧
    (getLons testHeader3).length = testHeader3.ncols ∧
    (getLats testHeader3 true).Pairwise (· > ·) ∧
    (getLons testHeader3).Pairwise (· < ·) := by
  obtain ⟨h1, h2, _, h4, _, h6⟩ := getLats_getLons_spec testHeader3
    (by norm_num [testHeader3]) (by norm_num [testHeader3]) (by norm_num [testHeader3])
  exact ⟨h1, h2, h4, h6⟩

/-- C9: with window width `W ≤ numTimes` and positive stride `S`, the
windowed analysis produces `1 + (numTimes - W) / S` window positions, and
window `w` covers exactly the contiguous time slice `[S*w, S*w + W)` of
each location's series (the slice has full length `W` and its `t`-th entry
is sample `S*w + t`). -/
theorem numWins_winSlice_spec (numTimes winSize winSlide : ℕ) (row : List ℚ) (w : ℕ)
    (hS : 0 < winSlide) (hW : winSize ≤ numTimes) (hrow : row.length = numTimes)
    (hw : w < numWins numTimes winSize winSlide) :
    numWins numTimes winSize winSlide = 1 + (numTimes - winSize) / winSlide ∧
    (winSlice row winSlide winSize w).length = winSize ∧
    (∀ t, t < winSize → (winSlice row winSlide winSize w)[t]? = row[winSlide * w + t]?) := by
  have hfit : winSlide * w + winSize ≤ numTimes := by
    have hw' : w ≤ (numTimes - winSize) / winSlide := by
      unfold numWins at hw; omega
    have h1 : winSlide * w ≤ winSlide * ((numTimes - winSize) / winSlide) :=
      Nat.mul_le_mul_left _ hw'
    have h2 : winSlide * ((numTimes - winSize) / winSlide) ≤ numTimes - winSize := by
      rw [mul_comm]; exact Nat.div_mul_le_self _ _
    omega
  refine ⟨rfl, ?_, ?_⟩
  · unfold winSlice
    rw [List.length_take, List.length_drop, hrow]
    omega
  · intro t ht
    unfold winSlice
    rw [List.getElem?_take, if_pos ht, List.getElem?_drop]

theorem numWins_winSlice_spec_witness :
    numWins 12 6 3 = 3 ∧
    (winSlice (List.replicate 12 (0 : ℚ)) 3 6 2).length = 6 ∧
    (winSlice (List.replicate 12 (0 : ℚ)) 3 6 2)[0]? =
      (List.replicate 12 (0 : ℚ))[3 * 2 + 0]? := by
  obtain ⟨ha, hb, hc⟩ := numWins_winSlice_spec 12 6 3 (List.replicate 12 (0 : ℚ)) 2
    (by norm_num) (by norm_num) (by simp) (by norm_num [numWins])
  refine ⟨?_, hb, hc 0 (by norm_num)⟩
  rw [ha]

/-- C3 (code bug): in the divergence-matrix loop the epsilon smoothing is
applied to `p` only, never to `q`, and is not a separately selected mode:
entry `(i, j)` is `compute_KLD(smoothed p_i, raw q_j, dx)`.  Consequently
even the diagonal entry for the single density `[1, 0]` is nonzero, while
either consistent policy (both densities smoothed, or both raw) gives
exactly `0` on the diagonal.  The two hypotheses (`log2 1 = 0` and
`log2 (100000001/100000002) ≠ 0`) hold for the real base-2 logarithm. -/
theorem kld_matrix_smoothing_mixed (log2 : ℚ → ℚ) (h1 : log2 1 = 0)
    (hA : log2 ((100000001 : ℚ) / 100000002) ≠ 0) :
    kldMatrixEntry log2 [[1, 0]] 1 0 0 ≠ some 0 ∧
    kldMatrixEntry log2 [[1, 0]] 1 0 0 =
      compute_KLD log2 (smoothDensity [1, 0]) [1, 0] 1 ∧
    compute_KLD log2 (smoothDensity [1, 0]) (smoothDensity [1, 0]) 1 = some 0 ∧
    compute_KLD log2 [1, 0] [1, 0] 1 = some 0 := by
  have hsm : smoothDensity [1, 0] = [(100000001 : ℚ) / 100000002, 1 / 100000002] := by
    norm_num [smoothDensity]
  have hentry : kldMatrixEntry log2 [[1, 0]] 1 0 0 =
      compute_KLD log2 (smoothDensity [1, 0]) [1, 0] 1 := by
    simp [kldMatrixEntry]
  have heval : compute_KLD log2 [(100000001 : ℚ) / 100000002, 1 / 100000002] [1, 0] 1 =
      some ((100000001 : ℚ) / 100000002 * log2 (100000001 / 100000002)) := by
    norm_num [compute_KLD, List.zip_cons_cons, List.foldl_cons, List.foldl_nil]
  refine ⟨?_, hentry, ?_, ?_⟩
  · rw [hentry, hsm, heval]
    simp only [ne_eq, Option.some.injEq]
    intro hzero
    rcases mul_eq_zero.mp hzero with hz | hz
    · norm_num at hz
    · exact hA hz
  · rw [hsm]
    norm_num [compute_KLD, List.zip_cons_cons, List.foldl_cons, List.foldl_nil, h1]
  · norm_num [compute_KLD, List.zip_cons_cons, List.foldl_cons, List.foldl_nil, h1]

theorem kld_matrix_smoothing_mixed_witness :
    kldMatrixEntry (fun x => if x = 1 then 0 else 1) [[1, 0]] 1 0 0 ≠ some 0 ∧
    compute_KLD (fun x => if x = 1 then 0 else 1) [1, 0] [1, 0] 1 = some 0 := by
  obtain ⟨ha, _, _, hd⟩ := kld_matrix_smoothing_mixed (fun x => if x = 1 then 0 else 1)
    (by norm_num) (by norm_num)
  exact ⟨ha, hd⟩

/-- C1: for a parent whose raw mask holds category id `k` exactly on the
rectangular cell block `[r1, r2] × [c1, c2]`, automatic (no explicit
bounding box) SubRegion derivation succeeds, crops exactly that block
(`parentLatStart = r1`, `parentLatStop = r2 + 1`, similarly for
longitude), unmasks exactly the `k`-valued cells (a cropped cell is
unmasked iff its stored value equals `k`), and the child's unmasked-point
count equals the number of `k`-valued cells in the parent mask — for both
a descending (`b = true`) and an ascending (`b = false`) parent latitude
axis. -/
theorem subRegion_auto_block_exact (P : Region) (k : ℤ) (b : Bool) (lat0 lon0 : ℚ)
    (r1 r2 c1 c2 : ℕ)
    (hrev : P.reversedLats = some b)
    (hlatlen : P.lats.length = P.numLats) (hlonlen : P.lons.length = P.numLons)
    (hdLat : 0 < P.dLat) (hdLon : 0 < P.dLon)
    (hlat : ∀ i, i < P.numLats →
      P.lats[i]? = some (lat0 + (i : ℚ) * (if b then -P.dLat else P.dLat)))
    (hlon : ∀ j, j < P.numLons → P.lons[j]? = some (lon0 + (j : ℚ) * P.dLon))
    (hr12 : r1 ≤ r2) (hr2 : r2 < P.numLats) (hc12 : c1 ≤ c2) (hc2 : c2 < P.numLons)
    (hblock : ∀ r c, r < P.numLats → c < P.numLons →
      (P.topoMaskData r c = (k : ℚ) ↔ (r1 ≤ r ∧ r ≤ r2 ∧ c1 ≤ c ∧ c ≤ c2)))
    (hmaskblock : ∀ r c, r1 ≤ r → r ≤ r2 → c1 ≤ c → c ≤ c2 →
      P.topoMaskMask r c = false) :
    ∃ ch, SubRegion.make P k none none none = .ok ch ∧
      ch.parentLatStart = r1 ∧ ch.parentLatStop = r2 + 1 ∧
      ch.parentLonStart = c1 ∧ ch.parentLonStop = c2 + 1 ∧
      ch.numUnmaskedPoints = countEq P (k : ℚ) ∧
      ch.numUnmaskedPoints = (r2 + 1 - r1) * (c2 + 1 - c1) ∧
      (∀ r c, ch.topoMaskMask r c = false ↔ ch.topoMaskData r c = (k : ℚ)) := by
  refine ⟨_, subRegion_make_block P k b lat0 lon0 r1 r2 c1 c2 none none hrev hlatlen
    hlonlen hdLat hdLon hlat hlon hr12 hr2 hc12 hc2 hblock
    (hmaskblock r1 c1 (le_refl r1) hr12 (le_refl c1) hc12)
    (hmaskblock r2 c2 hr12 (le_refl r2) hc12 (le_refl c2)),
    rfl, rfl, rfl, rfl, ?_, rfl, ?_⟩
  · show (r2 + 1 - r1) * (c2 + 1 - c1) = countEq P (k : ℚ)
    exact (countEq_block hr12 hr2 hc12 hc2 hblock).symm
  · intro r c
    show decide (P.topoMaskData (r1 + r) (c1 + c) ≠ (k : ℚ)) = false ↔
      P.topoMaskData (r1 + r) (c1 + c) = (k : ℚ)
    simp

theorem subRegion_auto_block_exact_witness :
    ((SubRegion.make testParentDesc 1 none none none).map
      (fun ch => (ch.parentLatStart, ch.parentLatStop, ch.parentLonStart,
                  ch.parentLonStop, ch.numUnmaskedPoints)) =
      Except.ok (0, 2, 0, 2, 4)) ∧
    countEq testParentDesc ((1 : ℤ) : ℚ) = 4 ∧
    ((SubRegion.make testParentAsc 1 none none none).map
      (fun ch => (ch.parentLatStart, ch.parentLatStop, ch.parentLonStart,
                  ch.parentLonStop, ch.numUnmaskedPoints)) =
      Except.ok (0, 2, 0, 2, 4)) := by
  obtain ⟨chD, hmkD, hD1, hD2, hD3, hD4, hD5, hD6, -⟩ :=
    subRegion_auto_block_exact testParentDesc 1 true (5/2) (1/2) 0 1 0 1
      rfl rfl rfl (by norm_num [testParentDesc]) (by norm_num [testParentDesc])
      (by intro i hi
          simp only [testParentDesc] at hi ⊢
          interval_cases i <;> norm_num)
      (by intro j hj
          simp only [testParentDesc] at hj ⊢
          interval_cases j <;> norm_num)
      (by norm_num) (by norm_num [testParentDesc])
      (by norm_num) (by norm_num [testParentDesc])
      (by intro r c hr hc
          simp only [testParentDesc] at hr hc ⊢
          interval_cases r <;> interval_cases c <;> norm_num)
      (fun _ _ _ _ _ _ => rfl)
  obtain ⟨chA, hmkA, hA1, hA2, hA3, hA4, -, hA6, -⟩ :=
    subRegion_auto_block_exact testParentAsc 1 false (1/2) (1/2) 0 1 0 1
      rfl rfl rfl (by norm_num [testParentAsc]) (by norm_num [testParentAsc])
      (by intro i hi
          simp only [testParentAsc] at hi ⊢
          interval_cases i <;> norm_num)
      (by intro j hj
          simp only [testParentAsc] at hj ⊢
          interval_cases j <;> norm_num)
      (by norm_num) (by norm_num [testParentAsc])
      (by norm_num) (by norm_num [testParentAsc])
      (by intro r c hr hc
          simp only [testParentAsc] at hr hc ⊢
          interval_cases r <;> interval_cases c <;> norm_num)
      (fun _ _ _ _ _ _ => rfl)
  refine ⟨?_, ?_, ?_⟩
  · rw [hmkD]
    simp only [Except.map]
    rw [hD1, hD2, hD3, hD4, hD6]
  · rw [← hD5, hD6]
  · rw [hmkA]
    simp only [Except.map]
    rw [hA1, hA2, hA3, hA4, hA6]

lemma latWindow_rev_ok_inv {lats : List ℚ} {minLat maxLat : ℚ} {a bq st sp : ℕ}
    (h : latWindow lats true minLat maxLat = .ok (a, bq, st, sp)) :
    ((List.range lats.length).filter
      (fun i => decide (minLat ≤ lats.getD i 0))).getLast? = some a ∧
    ((List.range lats.length).filter
      (fun i => decide (lats.getD i 0 ≤ maxLat))).head? = some bq ∧
    st = bq ∧ sp = a + 1 := by
  unfold latWindow at h
  rw [if_pos rfl] at h
  cases hge : ((List.range lats.length).filter
      (fun i => decide (minLat ≤ lats.getD i 0))).getLast? with
  | none => simp only [hge] at h; cases h
  | some p1 =>
    simp only [hge] at h
    cases hle : ((List.range lats.length).filter
        (fun i => decide (lats.getD i 0 ≤ maxLat))).head? with
    | none => simp only [hle] at h; cases h
    | some p2 =>
      simp only [hle, Except.ok.injEq, Prod.mk.injEq] at h
      obtain ⟨h1, h2, h3, h4⟩ := h
      refine ⟨?_, ?_, ?_, ?_⟩
      · simp [h1]
      · simp [h2]
      · omega
      · omega

/-- C5: for a SubRegion derived from a descending-latitude parent whose
working bounding box contains at least one parent latitude cell center,
the latitude index window is never inverted
(`parentLatStart < parentLatStop`), with the row start taken from the
maximum-latitude index (`parentMaxLatIndex`) and the row stop from the
minimum-latitude index (`parentMinLatIndex + 1`) — the min/max roles
swapped relative to the ascending case. -/
theorem subRegion_desc_window_order (P : Region) (k : ℤ)
    (bb : Option (ℚ × ℚ × ℚ × ℚ)) (nm rt : Option String) (ch : SubRegion)
    (hmk : SubRegion.make P k bb nm rt = .ok ch)
    (hrev : P.reversedLats = some true)
    (hdesc : P.lats.Pairwise (· > ·))
    (hoverlap : ∃ i, i < P.lats.length ∧ ch.minLat ≤ P.lats.getD i 0 ∧
      P.lats.getD i 0 ≤ ch.maxLat) :
    ch.parentLatStart < ch.parentLatStop ∧
    ch.parentLatStart = ch.parentMaxLatIndex ∧
    ch.parentLatStop = ch.parentMinLatIndex + 1 := by
  obtain ⟨rev, minLon, minLat, maxLon, maxLat, hrev', hbox, hlatw, hlonw, _, hchmin,
    hchmax, _, _, _, _, _, _, _, _, _, _⟩ := subRegion_make_ok_inv hmk
  have hrevt : rev = true := by
    rw [hrev] at hrev'
    exact (Option.some.inj hrev').symm
  subst hrevt
  obtain ⟨hge, hle, hst, hsp⟩ := latWindow_rev_ok_inv hlatw
  obtain ⟨i, hin, hige, hile⟩ := hoverlap
  rw [hchmin] at hige
  rw [hchmax] at hile
  have himem_ge : i ∈ (List.range P.lats.length).filter
      (fun i => decide (minLat ≤ P.lats.getD i 0)) :=
    mem_filter_range.mpr ⟨hin, by simp only [decide_eq_true_eq]; exact hige⟩
  have himem_le : i ∈ (List.range P.lats.length).filter
      (fun i => decide (P.lats.getD i 0 ≤ maxLat)) :=
    mem_filter_range.mpr ⟨hin, by simp only [decide_eq_true_eq]; exact hile⟩
  have h5 := getLast?_some_spec (filter_range_sorted _ _) hge
  have h6 := head?_some_spec (filter_range_sorted _ _) hle
  have hi1 : ch.parentMaxLatIndex ≤ i := h6.2 i himem_le
  have hi2 : i ≤ ch.parentMinLatIndex := h5.2 i himem_ge
  refine ⟨?_, hst, hsp⟩
  rw [hst, hsp]
  omega

theorem subRegion_desc_window_order_witness :
    (SubRegion.make testParentDesc 3 none none none).map
      (fun ch => (decide (ch.parentLatStart < ch.parentLatStop),
                  decide (ch.parentLatStart = ch.parentMaxLatIndex),
                  decide (ch.parentLatStop = ch.parentMinLatIndex + 1))) =
      Except.ok (true, true, true) := by
  have hmk := subRegion_make_block testParentDesc 3 true (5/2) (1/2) 2 2 0 2 none none
    rfl rfl rfl (by norm_num [testParentDesc]) (by norm_num [testParentDesc])
    (by intro i hi
        simp only [testParentDesc] at hi ⊢
        interval_cases i <;> norm_num)
    (by intro j hj
        simp only [testParentDesc] at hj ⊢
        interval_cases j <;> norm_num)
    (by norm_num) (by norm_num [testParentDesc])
    (by norm_num) (by norm_num [testParentDesc])
    (by intro r c hr hc
        simp only [testParentDesc] at hr hc ⊢
        interval_cases r <;> interval_cases c <;> norm_num)
    rfl rfl
  obtain ⟨horder, heq1, heq2⟩ := subRegion_desc_window_order testParentDesc 3 none none none
    _ hmk rfl (by norm_num [testParentDesc])
    (by refine ⟨2, by norm_num [testParentDesc], ?_, ?_⟩ <;>
          norm_num [testParentDesc, List.getD_cons_zero, List.getD_cons_succ])
  rw [hmk]
  simp only [Except.map]
  simp [horder, heq1, heq2]

/-- C10: the child's mask is built solely from the parent's raw stored
cell values in the index window compared against `float(k)` (the
`topoMask._get_data()` crop of lines 269-277): a cropped cell is unmasked
in the child iff its stored value equals `k`.  The parent's own
missing-value mask over the window (`regionTopoMask`, lines 272-274) is
extracted but never consulted in that construction, so a parent-masked
cell inside the window whose stored value happens to equal the category
id counts as unmasked in the child, and the child's unmasked-point count
is `ma.count` of that raw-value mask. -/
theorem subRegion_child_mask_raw (P : Region) (k : ℤ)
    (bb : Option (ℚ × ℚ × ℚ × ℚ)) (nm rt : Option String) (ch : SubRegion)
    (hmk : SubRegion.make P k bb nm rt = .ok ch) :
    (∀ r c, ch.topoMaskData r c =
      P.topoMaskData (ch.parentLatStart + r) (ch.parentLonStart + c)) ∧
    (∀ r c, (ch.topoMaskMask r c = false ↔
      P.topoMaskData (ch.parentLatStart + r) (ch.parentLonStart + c) = (k : ℚ))) ∧
    (∀ r c, P.topoMaskMask (ch.parentLatStart + r) (ch.parentLonStart + c) = true →
      P.topoMaskData (ch.parentLatStart + r) (ch.parentLonStart + c) = (k : ℚ) →
      ch.topoMaskMask r c = false) ∧
    ch.numUnmaskedPoints = maCount ch.numLats ch.numLons ch.topoMaskMask := by
  obtain ⟨rev, minLon, minLat, maxLon, maxLat, -, -, -, -, -, -, -, -, -, -, -, -, -,
    hdata, hmask, hcount, -⟩ := subRegion_make_ok_inv hmk
  have hiff : ∀ r c, (ch.topoMaskMask r c = false ↔
      P.topoMaskData (ch.parentLatStart + r) (ch.parentLonStart + c) = (k : ℚ)) := by
    intro r c
    rw [hmask r c]
    simp
  exact ⟨hdata, hiff, fun r c _ hd => (hiff r c).mpr hd, hcount⟩

theorem subRegion_child_mask_raw_witness :
    testParentPartMasked.topoMaskMask 0 1 = true ∧
    (SubRegion.make testParentPartMasked 5 none none none).map
      (fun ch => (ch.numUnmaskedPoints, ch.topoMaskMask 0 1)) = Except.ok (4, false) := by
  have hmk := subRegion_make_block testParentPartMasked 5 true (3/2) (1/2) 0 1 0 1
    none none rfl rfl rfl
    (by norm_num [testParentPartMasked]) (by norm_num [testParentPartMasked])
    (by intro i hi
        simp only [testParentPartMasked] at hi ⊢
        interval_cases i <;> norm_num)
    (by intro j hj
        simp only [testParentPartMasked] at hj ⊢
        interval_cases j <;> norm_num)
    (by norm_num) (by norm_num [testParentPartMasked])
    (by norm_num) (by norm_num [testParentPartMasked])
    (by intro r c hr hc
        simp only [testParentPartMasked] at hr hc ⊢
        interval_cases r <;> interval_cases c <;> norm_num)
    rfl rfl
  obtain ⟨hdata, hiff, hpm, hcount⟩ := subRegion_child_mask_raw testParentPartMasked 5
    none none none _ hmk
  refine ⟨rfl, ?_⟩
  rw [hmk]
  simp only [Except.map]
  norm_num [testParentPartMasked]

/-- C2 (corrected): when no cell of the parent's raw mask equals the
requested category id, automatic SubRegion derivation fails with NumPy's
zero-size-reduction `ValueError` raised by `.min()` on the empty
`np.where` column-index array — not with a distinct, named
"category not present in parent mask" error.  It never returns a region
(empty, degenerate or otherwise). -/
theorem subRegion_absent_id_reduction_error (P : Region) (k : ℤ) (rv : Bool)
    (nm rt : Option String)
    (hrev : P.reversedLats = some rv)
    (hnone : ∀ r c, r < P.numLats → c < P.numLons → P.topoMaskData r c ≠ (k : ℚ)) :
    SubRegion.make P k none nm rt = .error .valueError := by
  have hbox := boxOf_auto_empty P k rv hnone
  simp only [SubRegion.make, hrev, hbox]

theorem subRegion_absent_id_reduction_error_witness :
    SubRegion.make testParentAsc 9 none none none = Except.error PyErr.valueError :=
  subRegion_absent_id_reduction_error testParentAsc 9 false none none rfl
    (by intro r c hr hc
        simp only [testParentAsc] at hr hc ⊢
        interval_cases r <;> interval_cases c <;> norm_num)

theorem subRegion_absent_id_reduction_error_counterexample :
    SubRegion.make testParentDesc 7 none none none = Except.error PyErr.valueError := by
  have hrev : testParentDesc.reversedLats = some true := rfl
  have hbox := boxOf_auto_empty testParentDesc 7 true
    (by intro r c hr hc
        simp only [testParentDesc] at hr hc ⊢
        interval_cases r <;> interval_cases c <;> norm_num)
  simp only [SubRegion.make, hrev, hbox]

lemma Region_make_exists_ok (h : GridHeader) (nm rt : Option String) (s : Bool)
    (data : ℕ → ℕ → ℚ) (dataMask : ℕ → ℕ → Bool) (lut : List (String × ℤ))
    (h0 : 0 < h.nrows) :
    ∃ R, Region.make h nm rt s data dataMask lut = .ok R := by
  have hne : getLats h true ≠ [] := by
    intro he
    have := getLats_length h
    rw [he] at this
    simp at this
    omega
  cases hlast : (getLats h true).getLast? with
  | none => exact absurd (List.getLast?_eq_none_iff.mp hlast) hne
  | some lastL =>
    cases hhead : (getLats h true).head? with
    | none => exact absurd (List.head?_eq_none_iff.mp hhead) hne
    | some firstL =>
      cases hmk : Region.make h nm rt s data dataMask lut with
      | ok R => exact ⟨R, rfl⟩
      | error e =>
        unfold Region.make at hmk
        simp only [hlast, hhead] at hmk
        cases hmk

/-- C6 (corrected): `Region.__init__` records the latitude orientation
only one-sidedly: the flag is `some true` when `lats[-1] < lats[0]`
(which holds for every valid header with `nrows ≥ 2` and positive cell
size, since `getLats` reverses by default), but in every other case the
attribute is left unset (`none`) rather than being set to `False`, so the
flag is never readable as `False` after construction. -/
theorem region_orientation_flag_one_sided (h : GridHeader) (nm rt : Option String)
    (s : Bool) (data : ℕ → ℕ → ℚ) (dataMask : ℕ → ℕ → Bool)
    (lut : List (String × ℤ)) (R : Region)
    (hmk : Region.make h nm rt s data dataMask lut = .ok R) :
    R.reversedLats ≠ some false ∧
    (0 < h.cellsize → 2 ≤ h.nrows → R.reversedLats = some true) := by
  obtain ⟨lastL, firstL, hlast, hhead, hflag, -, -, -, -, -, -, -⟩ :=
    Region_make_ok_inv hmk
  constructor
  · rw [hflag]
    split <;> simp
  · intro hcs hn
    have hlast' : (getLats h true).getLast? = some (h.yllcorner + h.cellsize / 2) := by
      rw [List.getLast?_eq_getElem?, getLats_length h,
        getLats_getElem h (show h.nrows - 1 < h.nrows by omega)]
      have : h.nrows - 1 - (h.nrows - 1) = 0 := by omega
      rw [this]
      norm_num
    have hhead' : (getLats h true).head? =
        some (h.yllcorner + h.cellsize / 2 + ((h.nrows - 1 : ℕ) : ℚ) * h.cellsize) := by
      rw [List.head?_eq_getElem?, getLats_getElem h (show 0 < h.nrows by omega)]
      norm_num
    have hL : lastL = h.yllcorner + h.cellsize / 2 := by
      rw [hlast] at hlast'
      exact Option.some.inj hlast'
    have hF : firstL = h.yllcorner + h.cellsize / 2 + ((h.nrows - 1 : ℕ) : ℚ) * h.cellsize := by
      rw [hhead] at hhead'
      exact Option.some.inj hhead'
    rw [hflag, hL, hF, if_pos]
    have hpos : (0 : ℚ) < ((h.nrows - 1 : ℕ) : ℚ) * h.cellsize := by
      apply mul_pos _ hcs
      exact_mod_cast (show 0 < h.nrows - 1 by omega)
    linarith

theorem region_orientation_flag_one_sided_witness :
    (Region.make testHeader3 none none false (fun _ _ => 0) (fun _ _ => false) []).map
      (fun R => R.reversedLats) = Except.ok (some true) := by
  obtain ⟨R, hmk⟩ := Region_make_exists_ok testHeader3 none none false
    (fun _ _ => 0) (fun _ _ => false) [] (by norm_num [testHeader3])
  have hflag := (region_orientation_flag_one_sided testHeader3 none none false
    (fun _ _ => 0) (fun _ _ => false) [] R hmk).2
    (by norm_num [testHeader3]) (by norm_num [testHeader3])
  rw [hmk]
  simp only [Except.map]
  rw [hflag]

theorem region_orientation_flag_one_sided_counterexample :
    (Region.make testHeader1 none none false (fun _ _ => 0) (fun _ _ => false) []).map
      (fun R => R.reversedLats) = Except.ok none ∧
    (Region.make testHeader1 none none false (fun _ _ => 0) (fun _ _ => false) []).map
      (fun R => R.reversedLats) ≠ Except.ok (some false) := by
  have h1 : getLats testHeader1 true = [1/2] := by
    norm_num [getLats, testHeader1, List.range_succ]
  have hmk : (Region.make testHeader1 none none false (fun _ _ => 0)
      (fun _ _ => false) []).map (fun R => R.reversedLats) = Except.ok none := by
    simp only [Region.make, h1]
    norm_num
    simp only [Except.map]
  exact ⟨hmk, by rw [hmk]; simp⟩

/-- C7 (corrected): `SubRegion.__init__` performs no nesting check and
never raises a configuration error for a SubRegion parent: any successful
derivation simply records `subRegionLevel = parent level + 1` (so a
SubRegion-of-SubRegion is silently constructed with level 2, as the
counterexample shows); the only guard is that every child has
`hasSubRegionDefs = False`, so id-lookup-table operations on it
(`getSubRegionNames`) end in the warning-and-`sys.exit()` path. -/
theorem subRegion_nesting_unchecked (P : Region) (k : ℤ)
    (bb : Option (ℚ × ℚ × ℚ × ℚ)) (nm rt : Option String) (ch : SubRegion)
    (hmk : SubRegion.make P k bb nm rt = .ok ch) :
    ch.subRegionLevel = P.subRegionLevel + 1 ∧
    ch.hasSubRegionDefs = false ∧
    Region.getSubRegionNames ch.toRegion = .error .sysExit := by
  obtain ⟨rev, minLon, minLat, maxLon, maxLat, -, -, -, -, -, -, -, -, -, hlevel,
    hdefs, -, -, -, -, -, -⟩ := subRegion_make_ok_inv hmk
  exact ⟨hlevel, hdefs, by simp [Region.getSubRegionNames, hdefs]⟩

theorem subRegion_nesting_unchecked_witness :
    (SubRegion.make testParentDesc 2 none none none).map
      (fun ch => (ch.subRegionLevel, ch.hasSubRegionDefs)) = Except.ok (1, false) := by
  have hmk := subRegion_make_block testParentDesc 2 true (5/2) (1/2) 0 1 2 2 none none
    rfl rfl rfl (by norm_num [testParentDesc]) (by norm_num [testParentDesc])
    (by intro i hi
        simp only [testParentDesc] at hi ⊢
        interval_cases i <;> norm_num)
    (by intro j hj
        simp only [testParentDesc] at hj ⊢
        interval_cases j <;> norm_num)
    (by norm_num) (by norm_num [testParentDesc])
    (by norm_num) (by norm_num [testParentDesc])
    (by intro r c hr hc
        simp only [testParentDesc] at hr hc ⊢
        interval_cases r <;> interval_cases c <;> norm_num)
    rfl rfl
  obtain ⟨hl, hd, -⟩ := subRegion_nesting_unchecked testParentDesc 2 none none none
    _ hmk
  rw [hmk]
  simp only [Except.map]
  norm_num [testParentDesc]

theorem subRegion_nesting_counterexample :
    ((SubRegion.make testParentDesc 1 none none none).bind
      (fun s1 => SubRegion.make s1.toRegion 1 none none none)).map
      (fun s2 => s2.subRegionLevel) = Except.ok 2 := by
  have h1 := subRegion_make_block testParentDesc 1 true (5/2) (1/2) 0 1 0 1 none none
    rfl rfl rfl (by norm_num [testParentDesc]) (by norm_num [testParentDesc])
    (by intro i hi
        simp only [testParentDesc] at hi ⊢
        interval_cases i <;> norm_num)
    (by intro j hj
        simp only [testParentDesc] at hj ⊢
        interval_cases j <;> norm_num)
    (by norm_num) (by norm_num [testParentDesc])
    (by norm_num) (by norm_num [testParentDesc])
    (by intro r c hr hc
        simp only [testParentDesc] at hr hc ⊢
        interval_cases r <;> interval_cases c <;> norm_num)
    rfl rfl
  rw [h1]
  simp only [Except.bind]
  rw [subRegion_make_block _ 1 true (5/2) (1/2) 0 1 0 1 none none
    rfl (by norm_num [testParentDesc]) (by norm_num [testParentDesc])
    (by norm_num [testParentDesc]) (by norm_num [testParentDesc])
    (by intro i hi
        simp only [testParentDesc] at hi ⊢
        interval_cases i <;> norm_num [testParentDesc])
    (by intro j hj
        simp only [testParentDesc] at hj ⊢
        interval_cases j <;> norm_num [testParentDesc])
    (by norm_num) (by norm_num [testParentDesc])
    (by norm_num) (by norm_num [testParentDesc])
    (by intro r c hr hc
        simp only [testParentDesc] at hr hc ⊢
        interval_cases r <;> interval_cases c <;> norm_num [testParentDesc])
    (by norm_num [testParentDesc]) (by norm_num [testParentDesc])]
  simp only [Except.map]
  norm_num [testParentDesc]
